import Mathlib

/-!
# Admission logic of the Playground webhook

A shallow embedding of `pkg/webhook/playground_webhook.go`: the defaulter
`Default`, the rule engine `generateValidate` and the three validating entry
points, together with the parts of the Kubernetes `field` and `validation`
packages they call.  Go run-time panics are made explicit with `Except Panic`.
-/

set_option autoImplicit false
set_option linter.dupNamespace false

namespace Llmaz

/-! ## Go run-time model -/

/-- The two run-time panics the embedded code can raise. -/
inductive Panic where
  | nilDereference
  | indexOutOfRange
deriving DecidableEq, Repr

deriving instance DecidableEq for Except

/-- A Go slice; `none` is the nil slice, which differs from an empty non-nil one. -/
abbrev Slice (α : Type) := Option (List α)

/-- Go `len(s)`: zero for the nil slice. -/
def Slice.len {α : Type} (s : Slice α) : Nat :=
  match s with
  | none => 0
  | some l => l.length

/-- Go `s[0]`: the run-time panics when the slice has no element. -/
def Slice.first {α : Type} (s : Slice α) : Except Panic α :=
  match s with
  | some (a :: _) => .ok a
  | _ => .error .indexOutOfRange

/-- A Go `map[string]string` that is not nil, by its lookup. -/
abbrev StringMap := String → Option String

/-- Go `map[string]string{}`. -/
def StringMap.empty : StringMap := fun _ => none

/-! ## Data model (API types of `api/core/v1alpha1` and `api/inference/v1alpha1`) -/

/-- Modelled from the spec: the type `coreapi.InferenceMode` is declared outside
`src/`; the spec gives it as `enum{Standard, SpeculativeDecoding}`. -/
inductive InferenceMode where
  | Standard
  | SpeculativeDecoding
deriving DecidableEq, Repr

/-- The type `coreapi.ModelClaim`: one model and its flavors. -/
structure ModelClaim where
  ModelName : String
  InferenceFlavors : Slice String
deriving DecidableEq, Repr

/-- The type `coreapi.MultiModelsClaim`. -/
structure MultiModelsClaim where
  ModelNames : Slice String
  InferenceMode : InferenceMode
  InferenceFlavors : Slice String
deriving DecidableEq, Repr

/-- The type `v1.EnvVar`, restricted to the two fields the repository sets. -/
structure EnvVar where
  Name : String
  Value : String
deriving DecidableEq, Repr

/-- Modelled from the spec: `resource.Quantity` is an external type; the spec
compares quantities by exact numeric equality, so a quantity is the number it
denotes together with the text it was written as. -/
structure Quantity where
  value : ℚ
  text : String
deriving DecidableEq

/-- The type `v1.ResourceList`, a map from resource name to quantity, kept as
the list of its entries. -/
abbrev ResourceList := List (String × Quantity)

/-- The type `inferenceapi.ResourceRequirements`. -/
structure ResourceRequirements where
  Limits : ResourceList
  Requests : ResourceList
deriving DecidableEq

/-- The type `inferenceapi.BackendConfig`; `Name` and `Version` are pointers. -/
structure BackendConfig where
  Name : Option String
  Version : Option String
  Args : Slice String
  Envs : Slice EnvVar
  Resources : Option ResourceRequirements
deriving DecidableEq

/-- The type `inferenceapi.PlaygroundSpec`; every field is a pointer. -/
structure PlaygroundSpec where
  ModelClaim : Option ModelClaim
  MultiModelsClaim : Option MultiModelsClaim
  BackendConfig : Option BackendConfig
  Replicas : Option Int
deriving DecidableEq

/-- The type `inferenceapi.Playground`, with the metadata the webhook reads:
name, namespace and labels (`none` is the nil map). -/
structure Playground where
  Name : String
  Namespace : String
  Labels : Option StringMap
  Spec : PlaygroundSpec

/-- Modelled from the spec: the constant `coreapi.ModelNameLabelKey` is declared
outside `src/`; the spec calls it a fixed well-known label key and writes the
label as `model-name`. -/
def ModelNameLabelKey : String := "model-name"

/-- The constant `inferenceapi.VLLM`, the backend name the fixture builder
spells `"vllm"`. -/
def VLLM : String := "vllm"

/-! ## The Kubernetes `field` package -/

/-- The two `field.ErrorType` values the webhook produces. -/
inductive ErrorType where
  | ErrorTypeForbidden
  | ErrorTypeInvalid
deriving DecidableEq, Repr

/-- Go `ErrorType.String`. -/
def ErrorType.String : ErrorType → String
  | .ErrorTypeForbidden => "Forbidden"
  | .ErrorTypeInvalid => "Invalid value"

/-- A `field.Path` all of whose elements are names, root first. -/
abbrev Path := List String

/-- Go `field.NewPath(name)`. -/
def NewPath (name : String) : Path := [name]

/-- Go `p.Child(name, moreNames...)`. -/
def Path.Child (p : Path) (name : String) (moreNames : List String) : Path :=
  p ++ name :: moreNames

/-- Go `p.String()`: the names joined by dots. -/
def Path.String (p : Path) : String := ".".intercalate p

/-- A `field.Error`, one violation; `Field` is the rendered path. -/
structure Error where
  Type_ : ErrorType
  Field : String
  BadValue : String
  Detail : String
deriving DecidableEq, Repr

/-- A `field.ErrorList`. -/
abbrev ErrorList := List Error

/-- Go `field.Forbidden(field, detail)`. -/
def Forbidden (field : Path) (detail : String) : Error :=
  { Type_ := .ErrorTypeForbidden, Field := field.String, BadValue := "", Detail := detail }

/-- Go `field.Invalid(field, value, detail)` for a string value. -/
def Invalid (field : Path) (value : String) (detail : String) : Error :=
  { Type_ := .ErrorTypeInvalid, Field := field.String, BadValue := value, Detail := detail }

/-- Go `(*Error).ErrorBody` on the two error types above: forbidden errors
print no value, invalid ones print the value quoted by `quote`, which stands
for `strconv.Quote` (format verb `%q`). -/
def Error.ErrorBody (quote : String → String) (v : Error) : String :=
  let s :=
    match v.Type_ with
    | .ErrorTypeForbidden => v.Type_.String
    | .ErrorTypeInvalid => v.Type_.String ++ ": " ++ quote v.BadValue
  if v.Detail.utf8ByteSize ≠ 0 then s ++ ": " ++ v.Detail else s

/-- Go `(*Error).Error`. -/
def Error.Error (quote : String → String) (v : Error) : String :=
  v.Field ++ ": " ++ v.ErrorBody quote

/-- The loop of `ErrorList.ToAggregate`: an error whose message was already
seen is dropped. -/
def ToAggregate.loop (quote : String → String) :
    ErrorList → List String → List Error → List Error
  | [], _, errs => errs
  | err :: rest, errorMsgs, errs =>
    let msg := err.Error quote
    if msg ∈ errorMsgs then ToAggregate.loop quote rest errorMsgs errs
    else ToAggregate.loop quote rest (msg :: errorMsgs) (errs ++ [err])

/-- Go `ErrorList.ToAggregate`: the nil aggregate is the empty list, and a
non-nil aggregate is the list of the errors with pairwise different messages. -/
def ToAggregate (quote : String → String) (list : ErrorList) : List Error :=
  if list.length = 0 then [] else ToAggregate.loop quote list [] []

/-! ## The Kubernetes `validation` package -/

/-- The constant `DNS1123LabelMaxLength`. -/
def DNS1123LabelMaxLength : Nat := 63

/-- Go `MaxLenError(63)`. -/
def maxLenError : String := "must be no more than 63 characters"

/-- Go `RegexError(dns1123LabelErrMsg, dns1123LabelFmt, "my-name", "123-abc")`. -/
def dns1123LabelRegexError : String :=
  "a lowercase RFC 1123 label must consist of lower case alphanumeric characters or \x27-\x27, and must start and end with an alphanumeric character (e.g. \x27my-name\x27,  or \x27123-abc\x27, regex used for validation is \x27[a-z0-9]([-a-z0-9]*[a-z0-9])?\x27)"

/-- The character class `[a-z0-9]`. -/
def isLowerAlnum (c : Char) : Bool :=
  ('a'.toNat ≤ c.toNat && c.toNat ≤ 'z'.toNat) || ('0'.toNat ≤ c.toNat && c.toNat ≤ '9'.toNat)

/-- The character class `[-a-z0-9]`. -/
def isLabelChar (c : Char) : Bool := c == '-' || isLowerAlnum c

/-- Whether the whole of the characters matches `[a-z0-9]([-a-z0-9]*[a-z0-9])?`. -/
def dns1123LabelMatch : List Char → Bool
  | [] => false
  | c :: cs =>
    isLowerAlnum c &&
      (match cs.getLast? with
       | none => true
       | some last => cs.all isLabelChar && isLowerAlnum last)

/-- The detail `IsDNS1123Label` gives a DNS subdomain that is not a label. -/
def dotsError : String := "must not contain dots"

/-- Whether the whole of the characters matches the subdomain pattern, the
label pattern followed by any number of a dot and the label pattern: every
piece between dots is a label. -/
def dns1123SubdomainMatch (cs : List Char) : Bool :=
  (cs.splitOn '.').all dns1123LabelMatch

/-- Go `validation.IsDNS1123Label`: at most one length error, then at most one
syntax error, which for a DNS subdomain is that it has dots. -/
def IsDNS1123Label (value : String) : List String :=
  let errs : List String := []
  let errs := if value.utf8ByteSize > DNS1123LabelMaxLength then errs ++ [maxLenError] else errs
  let errs :=
    if !dns1123LabelMatch value.data then
      if dns1123SubdomainMatch value.data then errs ++ [dotsError]
      else errs ++ [dns1123LabelRegexError]
    else errs
  errs

/-! ## `pkg/webhook/playground_webhook.go` -/

/-- The method `PlaygroundWebhook.Default`.  The object is mutated in place in
Go; here the mutated object is returned, and `.ok` stands for the nil error. -/
def Default (playground : Playground) : Except Panic Playground := do
  let modelName ←
    match playground.Spec.ModelClaim with
    | some modelClaim => pure modelClaim.ModelName
    | none =>
      match playground.Spec.MultiModelsClaim with
      | some multiModelsClaim => multiModelsClaim.ModelNames.first
      | none => pure ""
  let labels : StringMap :=
    match playground.Labels with
    | none => StringMap.empty
    | some labels => labels
  pure { playground with Labels := some (Function.update labels ModelNameLabelKey (some modelName)) }

/-- The method `PlaygroundWebhook.generateValidate`. -/
def generateValidate (playground : Playground) : Except Panic ErrorList := do
  let specPath := NewPath "spec"
  let allErrs : ErrorList := []
  let allErrs :=
    if playground.Spec.ModelClaim = none ∧ playground.Spec.MultiModelsClaim = none then
      allErrs ++ [Forbidden specPath "modelClaim and multiModelsClaim couldn\x27t be both nil"]
    else allErrs
  match playground.Spec.MultiModelsClaim with
  | none => pure allErrs
  | some multiModelsClaim =>
    if multiModelsClaim.InferenceMode = InferenceMode.SpeculativeDecoding then
      let notVLLM ←
        match playground.Spec.BackendConfig with
        | none => pure false
        | some backendConfig =>
          match backendConfig.Name with
          | none => throw Panic.nilDereference
          | some name => pure (decide (name ≠ VLLM))
      let allErrs :=
        if notVLLM then
          allErrs ++ [Forbidden (specPath.Child "multiModelsClaim" ["inferenceMode"])
            "only vLLM supports speculativeDecoding mode"]
        else allErrs
      let allErrs :=
        if multiModelsClaim.ModelNames.len ≠ 2 then
          allErrs ++ [Forbidden (specPath.Child "multiModelsClaim" ["modelNames"])
            "only two models are allowed in speculativeDecoding mode"]
        else allErrs
      pure allErrs
    else pure allErrs

/-- The method `PlaygroundWebhook.ValidateCreate`; the result is the aggregate
error, the empty list being nil.  `quote` is Go `strconv.Quote`, which
`ToAggregate` reaches through the messages of the errors. -/
def ValidateCreate (quote : String → String) (playground : Playground) :
    Except Panic (List Error) := do
  let allErrs ← generateValidate playground
  let allErrs := (IsDNS1123Label playground.Name).foldl
    (fun allErrs err => allErrs ++ [Invalid (NewPath "metadata.name") playground.Name err]) allErrs
  pure (ToAggregate quote allErrs)

/-- The method `PlaygroundWebhook.ValidateUpdate`; `oldObj` is not read. -/
def ValidateUpdate (quote : String → String) (_oldObj newObj : Playground) :
    Except Panic (List Error) := do
  let allErrs ← generateValidate newObj
  pure (ToAggregate quote allErrs)

/-- The method `PlaygroundWebhook.ValidateDelete`: nil warnings, nil error. -/
def ValidateDelete (_obj : Playground) : Except Panic (List Error) := pure []

/-! ## The violations by name, and the rules in the words of the specification -/

/-- The violation of rule 1: neither claim is set. -/
def specForbidden : Error :=
  Forbidden (NewPath "spec") "modelClaim and multiModelsClaim couldn\x27t be both nil"

/-- The violation of rule 2a: speculative decoding on a backend other than vLLM. -/
def inferenceModeForbidden : Error :=
  Forbidden ((NewPath "spec").Child "multiModelsClaim" ["inferenceMode"])
    "only vLLM supports speculativeDecoding mode"

/-- The violation of rule 2b: speculative decoding without exactly two models. -/
def modelNamesForbidden : Error :=
  Forbidden ((NewPath "spec").Child "multiModelsClaim" ["modelNames"])
    "only two models are allowed in speculativeDecoding mode"

/-- The violations of rule 3, one per syntax error of the name. -/
def nameErrors (name : String) : List Error :=
  (IsDNS1123Label name).map (Invalid (NewPath "metadata.name") name)

/-- Every violation the webhook can report for a name, in report order. -/
def allViolations (name : String) : List Error :=
  [specForbidden, inferenceModeForbidden, modelNamesForbidden,
    Invalid (NewPath "metadata.name") name maxLenError,
    Invalid (NewPath "metadata.name") name dotsError,
    Invalid (NewPath "metadata.name") name dns1123LabelRegexError]

/-- Spec wording, rule 1: neither claim is set. -/
def bothClaimsNil (r : Playground) : Bool :=
  r.Spec.ModelClaim.isNone && r.Spec.MultiModelsClaim.isNone

/-- Spec wording, rule 2: the multi-model claim is set in speculative-decoding mode. -/
def speculativeDecoding (r : Playground) : Bool :=
  match r.Spec.MultiModelsClaim with
  | some m => m.InferenceMode == InferenceMode.SpeculativeDecoding
  | none => false

/-- Spec wording, rule 2a: a backend is named explicitly and it is not vLLM. -/
def explicitNonVLLMBackend (r : Playground) : Bool :=
  match r.Spec.BackendConfig with
  | some bc =>
    match bc.Name with
    | some n => n != VLLM
    | none => false
  | none => false

/-- Spec wording, rule 2b: the multi-model claim does not name exactly two models. -/
def modelNamesNotTwo (r : Playground) : Bool :=
  match r.Spec.MultiModelsClaim with
  | some m => m.ModelNames.len != 2
  | none => false

/-- A backend configuration is present and carries no name. -/
def backendNameMissing (r : Playground) : Bool :=
  match r.Spec.BackendConfig with
  | some bc => bc.Name.isNone
  | none => false

/-- Spec wording of the claim and mode rules (rules 1, 2a, 2b), in rule order. -/
def ruleViolations (r : Playground) : List Error :=
  (if bothClaimsNil r then [specForbidden] else []) ++
  (if speculativeDecoding r && explicitNonVLLMBackend r then [inferenceModeForbidden] else []) ++
  (if speculativeDecoding r && modelNamesNotTwo r then [modelNamesForbidden] else [])

/-- Go `v, ok := playground.Labels[key]`: the label at a key, if any. -/
def Playground.label (r : Playground) (key : String) : Option String :=
  match r.Labels with
  | none => none
  | some labels => labels key

/-! ## Concrete requests -/

/-- Go `strconv.Quote` on a string of printable ASCII characters other than
the double quote and the backslash: the string between double quotes. -/
def quoteAscii (s : String) : String := "\x22" ++ s ++ "\x22"

/-- A spec with nothing set. -/
def emptySpec : PlaygroundSpec :=
  { ModelClaim := none, MultiModelsClaim := none, BackendConfig := none, Replicas := none }

/-- A backend configuration that names the given backend and sets nothing else. -/
def backendNamed (name : Option String) : BackendConfig :=
  { Name := name, Version := none, Args := none, Envs := none, Resources := none }

/-- The claim on model `llama3-8b` of the sample playground. -/
def llamaClaim : ModelClaim := { ModelName := "llama3-8b", InferenceFlavors := none }

/-- A multi-model claim with the given names and mode and no flavor. -/
def multiClaim (names : List String) (mode : InferenceMode) : MultiModelsClaim :=
  { ModelNames := some names, InferenceMode := mode, InferenceFlavors := none }

/-- The object of `MockASamplePlayground("default")` before defaulting of the
label: name `playground-llama3-8b`, model claim `llama3-8b`. -/
def samplePlayground : Playground :=
  { Name := "playground-llama3-8b", Namespace := "default", Labels := none,
    Spec := { emptySpec with ModelClaim := some llamaClaim } }

/-- A request with neither claim set. -/
def noClaimPlayground : Playground :=
  { Name := "playground-none", Namespace := "default", Labels := none, Spec := emptySpec }

/-- A request on models `a` and `b` in standard mode, with a stale label. -/
def standardPlayground : Playground :=
  { Name := "playground-ab", Namespace := "default",
    Labels := some (Function.update StringMap.empty ModelNameLabelKey (some "stale")),
    Spec := { emptySpec with
                MultiModelsClaim := some (multiClaim ["a", "b"] InferenceMode.Standard) } }

/-- A request with both claims set, the multi-model one in standard mode. -/
def bothClaimsPlayground : Playground :=
  { Name := "playground-both", Namespace := "default", Labels := none,
    Spec := { emptySpec with
                ModelClaim := some llamaClaim,
                MultiModelsClaim := some (multiClaim ["a", "b"] InferenceMode.Standard) } }

/-- A request whose multi-model claim names no model. -/
def emptyNamesPlayground : Playground :=
  { Name := "playground-empty", Namespace := "default", Labels := none,
    Spec := { emptySpec with
                MultiModelsClaim := some (multiClaim [] InferenceMode.Standard) } }

/-- A speculative-decoding request on two models with the given backend
configuration. -/
def speculativePlayground (backend : Option BackendConfig) : Playground :=
  { Name := "playground-spec", Namespace := "default", Labels := none,
    Spec := { emptySpec with
                MultiModelsClaim :=
                  some (multiClaim ["target", "draft"] InferenceMode.SpeculativeDecoding),
                BackendConfig := backend } }

/-- A speculative-decoding request on one model whose backend configuration
carries no name. -/
def oneModelNamelessPlayground : Playground :=
  { Name := "playground-one", Namespace := "default", Labels := none,
    Spec := { emptySpec with
                MultiModelsClaim := some (multiClaim ["target"] InferenceMode.SpeculativeDecoding),
                BackendConfig := some (backendNamed none) } }

/-- A speculative-decoding request with backend `sglang`, three models and the
name `Playground_1`. -/
def badPlayground : Playground :=
  { Name := "Playground_1", Namespace := "default", Labels := none,
    Spec := { emptySpec with
                MultiModelsClaim :=
                  some (multiClaim ["a", "b", "c"] InferenceMode.SpeculativeDecoding),
                BackendConfig := some (backendNamed (some "sglang")) } }

/-- Spec wording of the DNS-label syntax of a name: only lowercase
alphanumerics and hyphens, at most 63 characters, not starting or ending with
a hyphen. -/
def dnsLabelSyntax (name : String) : Prop :=
  (∀ c ∈ name.data, isLowerAlnum c = true ∨ c = '-') ∧ name.length ≤ 63 ∧
    name.data.head? ≠ some '-' ∧ name.data.getLast? ≠ some '-'

/-- The sample playground under the name `a.b`, a DNS subdomain with a dot. -/
def dottedPlayground : Playground := { samplePlayground with Name := "a.b" }

/-- The sample playground under the empty name. -/
def emptyNamePlayground : Playground := { samplePlayground with Name := "" }

/-! ## Definitions for `test/util/validation/validate_playground.go` -/

/-- The type `coreapi.OpenModel`, with the metadata the checker reads. -/
structure OpenModel where
  Name : String
  Namespace : String
deriving DecidableEq

/-- The type `v1.Container`, with the fields the checker reads; its resources
have the shape of `ResourceRequirements`. -/
structure Container where
  Name : String
  Image : String
  Command : Slice String
  Args : Slice String
  Env : Slice EnvVar
  Resources : ResourceRequirements
deriving DecidableEq

/-- The type `v1.PodSpec`, with its containers. -/
structure PodSpec where
  Containers : Slice Container
deriving DecidableEq

/-- The type `v1.PodTemplateSpec`. -/
structure PodTemplateSpec where
  Spec : PodSpec
deriving DecidableEq

/-- The type `lws.LeaderWorkerTemplate`, with the worker template. -/
structure LeaderWorkerTemplate where
  WorkerTemplate : PodTemplateSpec
deriving DecidableEq

/-- The type `lws.LeaderWorkerSetSpec`; `Replicas` is a pointer. -/
structure LeaderWorkerSetSpec where
  Replicas : Option Int
  LeaderWorkerTemplate : LeaderWorkerTemplate
deriving DecidableEq

/-- The type `inferenceapi.ServiceSpec`; the claim is held by value. -/
structure ServiceSpec where
  MultiModelsClaim : MultiModelsClaim
  WorkloadTemplate : LeaderWorkerSetSpec
deriving DecidableEq

/-- The type `inferenceapi.Service`, the derived workload. -/
structure Service where
  Name : String
  Namespace : String
  Spec : ServiceSpec
deriving DecidableEq

/-- The cluster client, by the two lookups the checker makes with
`k8sClient.Get`: of a service and of a model, by name and namespace; `none` is
a returned error. -/
structure Client where
  GetService : String → String → Option Service
  GetModel : String → String → Option OpenModel

/-- The interface `backend.Backend`, by the four methods the checker calls. -/
structure Backend where
  DefaultCommands : Slice String
  Image : String → String
  DefaultVersion : String
  DefaultResources : ResourceRequirements

/-- Modelled from the spec: the constant `inferenceapi.DefaultBackend` is
declared outside `src/`; the spec calls it the fixed default backend, and the
fixture builder falls back on `"vllm"`. -/
def DefaultBackend : String := VLLM

/-- Modelled from the spec: the constant `modelSource.MODEL_RUNNER_CONTAINER_NAME`
is declared outside `src/`; the spec calls it the fixed constant identifying
the model-runner container. -/
def MODEL_RUNNER_CONTAINER_NAME : String := "model-runner"

/-- Go `Quantity.Equal`: the two quantities denote the same number. -/
def Quantity.Equal (q v : Quantity) : Bool := q.value == v.value

/-- The zero `resource.Quantity`, which indexing a map gives at a missing key. -/
def Quantity.zero : Quantity := { value := 0, text := "" }

/-- Go `m[k]` on a `v1.ResourceList`. -/
def ResourceList.index (m : ResourceList) (k : String) : Quantity :=
  match m.lookup k with
  | some q => q
  | none => Quantity.zero

/-- Go `playground.Labels[key]`: the empty string at a missing key or nil map. -/
def Playground.labelValue (r : Playground) (key : String) : String :=
  (r.label key).getD ""

/-- The elements of a slice, as `range` and `slices.Contains` see them: none
for the nil slice. -/
def Slice.toList {α : Type} (s : Slice α) : List α :=
  match s with
  | none => []
  | some l => l

/-- The errors the checker returns, by their format string; the arguments are
the values formatted into the message. -/
inductive CheckError where
  /-- The message `failed to get inferenceService`. -/
  | failedToGetInferenceService
  /-- The message `failed to get model`. -/
  | failedToGetModel
  /-- The message `expected modelName %s, got %s`. -/
  | expectedModelName (want got : String)
  /-- The message `expected modelNames, want %s, got %s`. -/
  | expectedModelNames (want got : Slice String)
  /-- The message `unexpected flavors, want %v, got %v`. -/
  | unexpectedFlavors (want got : Slice String)
  /-- The message `unexpected Playground label value, want %v, got %v`. -/
  | unexpectedLabelValue (want got : String)
  /-- The message `expected replicas: %d, got %d`. -/
  | expectedReplicas (want got : Int)
  /-- The message `container name not right, want %s, got %s`. -/
  | containerNameNotRight (want got : String)
  /-- The message `command not right`. -/
  | commandNotRight
  /-- The message `expected container image %s, got %s`. -/
  | expectedContainerImage (want got : String)
  /-- The message `didn't contain arg: %s`. -/
  | didntContainArg (arg : String)
  /-- The message `unexpected envs`. -/
  | unexpectedEnvs
  /-- The message `unexpected limit for %s, want %v, got %v`, which the code
  uses for limits and for requests alike. -/
  | unexpectedLimit (key : String) (want got : Quantity)
deriving DecidableEq

/-- How one evaluation of the checker ends other than with nil: an error it
returns, or a run-time panic. -/
inductive Failure where
  | returned (err : CheckError)
  | panicked (p : Panic)
deriving DecidableEq

/-- A panic of a slice index seen from the checker. -/
def orPanic {α : Type} (x : Except Panic α) : Except Failure α :=
  match x with
  | .ok a => .ok a
  | .error p => .error (Failure.panicked p)

/-- Go `*p` on a pointer. -/
def deref {α : Type} (p : Option α) : Except Failure α :=
  match p with
  | some a => .ok a
  | none => .error (Failure.panicked Panic.nilDereference)

/-- The loop `for _, arg := range Args` of `ValidatePlayground`: the first
argument that the derived arguments do not contain is reported. -/
def checkArgs (derived : List String) : List String → Except Failure Unit
  | [] => .ok ()
  | arg :: rest =>
    if arg ∉ derived then .error (Failure.returned (CheckError.didntContainArg arg))
    else checkArgs derived rest

/-- The loops `for k, v := range ...` of `ValidatePlayground` over a resource
list, in the order of its entries: the first entry whose quantity differs from
the derived one at its key is reported. -/
def checkQuantities (derived : ResourceList) : ResourceList → Except Failure Unit
  | [] => .ok ()
  | (k, v) :: rest =>
    if !(derived.index k).Equal v then
      .error (Failure.returned (CheckError.unexpectedLimit k v (derived.index k)))
    else checkQuantities derived rest

/-- The function `validateModelClaim`.  The variable `model` starts as the zero
record and is filled by the lookup of the branch taken. -/
def validateModelClaim (k8sClient : Client) (playground : Playground) (service : Service) :
    Except Failure Unit := do
  let model : OpenModel ←
    match playground.Spec.ModelClaim with
    | some modelClaim => do
      let model ←
        match k8sClient.GetModel modelClaim.ModelName playground.Namespace with
        | none => throw (Failure.returned CheckError.failedToGetModel)
        | some model => pure model
      let first ← orPanic service.Spec.MultiModelsClaim.ModelNames.first
      if modelClaim.ModelName ≠ first then
        throw (Failure.returned (CheckError.expectedModelName modelClaim.ModelName first))
      if modelClaim.InferenceFlavors ≠ service.Spec.MultiModelsClaim.InferenceFlavors then
        throw (Failure.returned (CheckError.unexpectedFlavors modelClaim.InferenceFlavors
          service.Spec.MultiModelsClaim.InferenceFlavors))
      pure model
    | none =>
      match playground.Spec.MultiModelsClaim with
      | some multiModelsClaim => do
        let first ← orPanic multiModelsClaim.ModelNames.first
        let model ←
          match k8sClient.GetModel first playground.Namespace with
          | none => throw (Failure.returned CheckError.failedToGetModel)
          | some model => pure model
        if multiModelsClaim.ModelNames ≠ service.Spec.MultiModelsClaim.ModelNames then
          throw (Failure.returned (CheckError.expectedModelNames multiModelsClaim.ModelNames
            service.Spec.MultiModelsClaim.ModelNames))
        if multiModelsClaim.InferenceFlavors ≠ service.Spec.MultiModelsClaim.InferenceFlavors then
          throw (Failure.returned (CheckError.unexpectedFlavors multiModelsClaim.InferenceFlavors
            service.Spec.MultiModelsClaim.InferenceFlavors))
        pure model
      | none => pure { Name := "", Namespace := "" }
  if playground.labelValue ModelNameLabelKey ≠ model.Name then
    throw (Failure.returned (CheckError.unexpectedLabelValue model.Name
      (playground.labelValue ModelNameLabelKey)))

/-- One evaluation of the function that `ValidatePlayground` polls; `.ok ()` is
the nil error.  `SwitchBackend` is `backend.SwitchBackend`. -/
def ValidatePlayground (SwitchBackend : String → Backend) (k8sClient : Client)
    (playground : Playground) : Except Failure Unit := do
  let service ←
    match k8sClient.GetService playground.Name playground.Namespace with
    | none => throw (Failure.returned CheckError.failedToGetInferenceService)
    | some service => pure service
  validateModelClaim k8sClient playground service
  let replicas ← deref playground.Spec.Replicas
  let serviceReplicas ← deref service.Spec.WorkloadTemplate.Replicas
  if replicas ≠ serviceReplicas then
    throw (Failure.returned (CheckError.expectedReplicas replicas serviceReplicas))
  let backendName :=
    match playground.Spec.BackendConfig with
    | some backendConfig =>
      match backendConfig.Name with
      | some name => name
      | none => DefaultBackend
    | none => DefaultBackend
  let bkd := SwitchBackend backendName
  let container ←
    orPanic service.Spec.WorkloadTemplate.LeaderWorkerTemplate.WorkerTemplate.Spec.Containers.first
  if container.Name ≠ MODEL_RUNNER_CONTAINER_NAME then
    throw (Failure.returned (CheckError.containerNameNotRight MODEL_RUNNER_CONTAINER_NAME
      container.Name))
  if bkd.DefaultCommands ≠ container.Command then
    throw (Failure.returned CheckError.commandNotRight)
  match playground.Spec.BackendConfig with
  | none => pure ()
  | some backendConfig =>
    match backendConfig.Version with
    | some version =>
      if bkd.Image version ≠ container.Image then
        throw (Failure.returned (CheckError.expectedContainerImage (bkd.Image version)
          container.Image))
    | none =>
      if bkd.Image bkd.DefaultVersion ≠ container.Image then
        throw (Failure.returned (CheckError.expectedContainerImage
          (bkd.Image bkd.DefaultVersion) container.Image))
    checkArgs container.Args.toList backendConfig.Args.toList
    if container.Env ≠ backendConfig.Envs then
      throw (Failure.returned CheckError.unexpectedEnvs)
    match backendConfig.Resources with
    | some resources =>
      checkQuantities container.Resources.Limits resources.Limits
      checkQuantities container.Resources.Requests resources.Requests
    | none =>
      checkQuantities container.Resources.Limits bkd.DefaultResources.Limits
      checkQuantities container.Resources.Requests bkd.DefaultResources.Requests

/-! ## The checks of the checker taken one at a time -/

/-- The model record the checker compares the label with: the looked-up record
of the primary model, and the zero record where nothing was looked up. -/
def resolvedModel (k8sClient : Client) (playground : Playground) : OpenModel :=
  match playground.Spec.ModelClaim with
  | some modelClaim =>
    (k8sClient.GetModel modelClaim.ModelName playground.Namespace).getD
      { Name := "", Namespace := "" }
  | none =>
    match playground.Spec.MultiModelsClaim with
    | some multiModelsClaim =>
      match multiModelsClaim.ModelNames.first with
      | .ok first => (k8sClient.GetModel first playground.Namespace).getD
          { Name := "", Namespace := "" }
      | .error _ => { Name := "", Namespace := "" }
    | none => { Name := "", Namespace := "" }

/-- Step "model lookup": the primary model is in the registry. -/
def lookupStep (k8sClient : Client) (playground : Playground) : Except Failure Unit :=
  match playground.Spec.ModelClaim with
  | some modelClaim =>
    match k8sClient.GetModel modelClaim.ModelName playground.Namespace with
    | none => .error (Failure.returned CheckError.failedToGetModel)
    | some _ => .ok ()
  | none =>
    match playground.Spec.MultiModelsClaim with
    | some multiModelsClaim =>
      match orPanic multiModelsClaim.ModelNames.first with
      | .error f => .error f
      | .ok first =>
        match k8sClient.GetModel first playground.Namespace with
        | none => .error (Failure.returned CheckError.failedToGetModel)
        | some _ => .ok ()
    | none => .ok ()

/-- Step "model names": the derived model names match the claim. -/
def namesStep (playground : Playground) (service : Service) : Except Failure Unit :=
  match playground.Spec.ModelClaim with
  | some modelClaim =>
    match orPanic service.Spec.MultiModelsClaim.ModelNames.first with
    | .error f => .error f
    | .ok first =>
      if modelClaim.ModelName ≠ first then
        .error (Failure.returned (CheckError.expectedModelName modelClaim.ModelName first))
      else .ok ()
  | none =>
    match playground.Spec.MultiModelsClaim with
    | some multiModelsClaim =>
      if multiModelsClaim.ModelNames ≠ service.Spec.MultiModelsClaim.ModelNames then
        .error (Failure.returned (CheckError.expectedModelNames multiModelsClaim.ModelNames
          service.Spec.MultiModelsClaim.ModelNames))
      else .ok ()
    | none => .ok ()

/-- The flavors of the claim the checker reads: of `modelClaim` when set, else
of `multiModelsClaim`. -/
def claimedFlavors (playground : Playground) : Option (Slice String) :=
  match playground.Spec.ModelClaim with
  | some modelClaim => some modelClaim.InferenceFlavors
  | none => playground.Spec.MultiModelsClaim.map (fun m => m.InferenceFlavors)

/-- Step "flavors": the derived flavors equal the claimed ones. -/
def flavorsStep (playground : Playground) (service : Service) : Except Failure Unit :=
  match claimedFlavors playground with
  | some flavors =>
    if flavors ≠ service.Spec.MultiModelsClaim.InferenceFlavors then
      .error (Failure.returned (CheckError.unexpectedFlavors flavors
        service.Spec.MultiModelsClaim.InferenceFlavors))
    else .ok ()
  | none => .ok ()

/-- Step "model-name label": the label equals the name of the resolved model. -/
def labelStep (k8sClient : Client) (playground : Playground) : Except Failure Unit :=
  if playground.labelValue ModelNameLabelKey ≠ (resolvedModel k8sClient playground).Name then
    .error (Failure.returned (CheckError.unexpectedLabelValue
      (resolvedModel k8sClient playground).Name (playground.labelValue ModelNameLabelKey)))
  else .ok ()

/-- Step "replicas": both replica counts are set and equal. -/
def replicasStep (playground : Playground) (service : Service) : Except Failure Unit :=
  match deref playground.Spec.Replicas with
  | .error f => .error f
  | .ok replicas =>
    match deref service.Spec.WorkloadTemplate.Replicas with
    | .error f => .error f
    | .ok serviceReplicas =>
      if replicas ≠ serviceReplicas then
        .error (Failure.returned (CheckError.expectedReplicas replicas serviceReplicas))
      else .ok ()

/-- The first container of the worker template, `Containers[0]`. -/
def Service.runner (service : Service) : Except Failure Container :=
  orPanic service.Spec.WorkloadTemplate.LeaderWorkerTemplate.WorkerTemplate.Spec.Containers.first

/-- The backend the checker resolves: the explicit name, else the default. -/
def effectiveBackend (SwitchBackend : String → Backend) (playground : Playground) : Backend :=
  SwitchBackend
    (match playground.Spec.BackendConfig with
     | some backendConfig =>
       match backendConfig.Name with
       | some name => name
       | none => DefaultBackend
     | none => DefaultBackend)

/-- A step on the first container: it fails with the panic of `Containers[0]`
when there is no container. -/
def onRunner (service : Service) (check : Container → Except Failure Unit) :
    Except Failure Unit :=
  match service.runner with
  | .error f => .error f
  | .ok container => check container

/-- A step of the block `if playground.Spec.BackendConfig != nil`: it passes
when there is no backend configuration. -/
def onBackendConfig (playground : Playground) (service : Service)
    (check : BackendConfig → Container → Except Failure Unit) : Except Failure Unit :=
  match playground.Spec.BackendConfig with
  | none => .ok ()
  | some backendConfig => onRunner service (check backendConfig)

/-- Step "container name". -/
def containerNameStep (service : Service) : Except Failure Unit :=
  onRunner service fun container =>
    if container.Name ≠ MODEL_RUNNER_CONTAINER_NAME then
      .error (Failure.returned (CheckError.containerNameNotRight MODEL_RUNNER_CONTAINER_NAME
        container.Name))
    else .ok ()

/-- Step "command". -/
def commandStep (bkd : Backend) (service : Service) : Except Failure Unit :=
  onRunner service fun container =>
    if bkd.DefaultCommands ≠ container.Command then
      .error (Failure.returned CheckError.commandNotRight)
    else .ok ()

/-- The image check on a backend configuration and the first container. -/
def imageCheck (bkd : Backend) (backendConfig : BackendConfig) (container : Container) :
    Except Failure Unit :=
  if bkd.Image (backendConfig.Version.getD bkd.DefaultVersion) ≠ container.Image then
    .error (Failure.returned (CheckError.expectedContainerImage
      (bkd.Image (backendConfig.Version.getD bkd.DefaultVersion)) container.Image))
  else .ok ()

/-- The argument check on a backend configuration and the first container. -/
def argsCheck (backendConfig : BackendConfig) (container : Container) : Except Failure Unit :=
  checkArgs container.Args.toList backendConfig.Args.toList

/-- The environment check on a backend configuration and the first container. -/
def envCheck (backendConfig : BackendConfig) (container : Container) : Except Failure Unit :=
  if container.Env ≠ backendConfig.Envs then
    .error (Failure.returned CheckError.unexpectedEnvs)
  else .ok ()

/-- The resources the checker compares with: the explicit ones, else the
defaults of the backend. -/
def expectedResources (bkd : Backend) (backendConfig : BackendConfig) : ResourceRequirements :=
  match backendConfig.Resources with
  | some resources => resources
  | none => bkd.DefaultResources

/-- The check of the resource limits on a backend configuration and the first
container. -/
def limitsCheck (bkd : Backend) (backendConfig : BackendConfig) (container : Container) :
    Except Failure Unit :=
  checkQuantities container.Resources.Limits (expectedResources bkd backendConfig).Limits

/-- The check of the resource requests on a backend configuration and the first
container. -/
def requestsCheck (bkd : Backend) (backendConfig : BackendConfig) (container : Container) :
    Except Failure Unit :=
  checkQuantities container.Resources.Requests (expectedResources bkd backendConfig).Requests

/-- Step "image", of the backend-configuration block. -/
def imageStep (bkd : Backend) (playground : Playground) (service : Service) :
    Except Failure Unit :=
  onBackendConfig playground service (imageCheck bkd)

/-- Step "arguments", of the backend-configuration block. -/
def argsStep (playground : Playground) (service : Service) : Except Failure Unit :=
  onBackendConfig playground service argsCheck

/-- Step "environment", of the backend-configuration block. -/
def envStep (playground : Playground) (service : Service) : Except Failure Unit :=
  onBackendConfig playground service envCheck

/-- Step "resource limits", of the backend-configuration block. -/
def limitsStep (bkd : Backend) (playground : Playground) (service : Service) :
    Except Failure Unit :=
  onBackendConfig playground service (limitsCheck bkd)

/-- Step "resource requests", of the backend-configuration block. -/
def requestsStep (bkd : Backend) (playground : Playground) (service : Service) :
    Except Failure Unit :=
  onBackendConfig playground service (requestsCheck bkd)

/-- The request with its backend configuration replaced. -/
def Playground.withBackendConfig (playground : Playground) (backendConfig : BackendConfig) :
    Playground :=
  { playground with Spec := { playground.Spec with BackendConfig := some backendConfig } }

/-- The twelve steps of the checker, each taken alone, in the order model
lookup, model names, flavors, model-name label, replicas, container name,
command, image, arguments, environment, resource limits, resource requests. -/
def checkSteps (SwitchBackend : String → Backend) (k8sClient : Client)
    (playground : Playground) (service : Service) : List (Except Failure Unit) :=
  [lookupStep k8sClient playground, namesStep playground service,
    flavorsStep playground service, labelStep k8sClient playground,
    replicasStep playground service, containerNameStep service,
    commandStep (effectiveBackend SwitchBackend playground) service,
    imageStep (effectiveBackend SwitchBackend playground) playground service,
    argsStep playground service, envStep playground service,
    limitsStep (effectiveBackend SwitchBackend playground) playground service,
    requestsStep (effectiveBackend SwitchBackend playground) playground service]

/-- The first failure of a list of steps, and success when there is none. -/
def firstFailure : List (Except Failure Unit) → Except Failure Unit
  | [] => .ok ()
  | .ok _ :: rest => firstFailure rest
  | .error f :: _ => .error f

/-! ## Concrete workloads -/

/-- A backend table for the examples: every name gives a backend that starts
`python3 -m server`, whose image is `runner:` followed by the version, with
default version `v1`, a default limit of 4 on `cpu` and a default request of 2
on `cpu`. -/
def sampleBackends : String → Backend := fun _ =>
  { DefaultCommands := some ["python3", "-m", "server"],
    Image := fun version => "runner:" ++ version,
    DefaultVersion := "v1",
    DefaultResources :=
      { Limits := [("cpu", { value := 4, text := "4" })],
        Requests := [("cpu", { value := 2, text := "2" })] } }

/-- The container a correct derivation gives on the sample backend table by
default: runner name, default command, default image and default resources. -/
def sampleContainer : Container :=
  { Name := "model-runner", Image := "runner:v1",
    Command := some ["python3", "-m", "server"],
    Args := none, Env := none,
    Resources :=
      { Limits := [("cpu", { value := 4, text := "4000m" })],
        Requests := [("cpu", { value := 2, text := "2" })] } }

/-- A derived workload with the given model names, first container and replica
count. -/
def serviceOn (names : List String) (container : Container) (replicas : Int) : Service :=
  { Name := "playground-llama3-8b", Namespace := "default",
    Spec :=
      { MultiModelsClaim :=
          { ModelNames := some names, InferenceMode := InferenceMode.Standard,
            InferenceFlavors := none },
        WorkloadTemplate :=
          { Replicas := some replicas,
            LeaderWorkerTemplate :=
              { WorkerTemplate := { Spec := { Containers := some [container] } } } } } }

/-- The derived workload of the sample playground with the given first
container and replica count. -/
def serviceWith (container : Container) (replicas : Int) : Service :=
  serviceOn ["llama3-8b"] container replicas

/-- The request on models `a` and `b` in standard mode after defaulting, with
one replica. -/
def multiServedPlayground : Playground :=
  { Name := "playground-ab", Namespace := "default",
    Labels := some (Function.update StringMap.empty ModelNameLabelKey (some "a")),
    Spec := { emptySpec with
                MultiModelsClaim := some (multiClaim ["a", "b"] InferenceMode.Standard),
                Replicas := some 1 } }

/-- A cluster that holds the given service under every name and a model record
under every model name. -/
def clusterWith (service : Service) : Client :=
  { GetService := fun _ _ => some service,
    GetModel := fun name ns => some { Name := name, Namespace := ns } }

/-- The request `{modelClaim: "llama3-8b", replicas: 1}` of the sample
playground after defaulting, with the given backend configuration. -/
def servedPlayground (backend : Option BackendConfig) : Playground :=
  { Name := "playground-llama3-8b", Namespace := "default",
    Labels := some (Function.update StringMap.empty ModelNameLabelKey (some "llama3-8b")),
    Spec := { ModelClaim := some llamaClaim, MultiModelsClaim := none,
              BackendConfig := backend, Replicas := some 1 } }

/-- The seven steps of the checker that come before the backend-configuration
block, for a given backend. -/
def commonSteps (bkd : Backend) (k8sClient : Client) (playground : Playground)
    (service : Service) : List (Except Failure Unit) :=
  [lookupStep k8sClient playground, namesStep playground service,
    flavorsStep playground service, labelStep k8sClient playground,
    replicasStep playground service, containerNameStep service, commandStep bkd service]

/-- The five checks of the backend-configuration block on the first container. -/
def blockChecks (bkd : Backend) (backendConfig : BackendConfig) (container : Container) :
    List (Except Failure Unit) :=
  [imageCheck bkd backendConfig container, argsCheck backendConfig container,
    envCheck backendConfig container, limitsCheck bkd backendConfig container,
    requestsCheck bkd backendConfig container]

/-- The workload with the resources of its first container replaced. -/
def Service.withRunnerResources (service : Service) (resources : ResourceRequirements) :
    Service :=
  { service with
    Spec := { service.Spec with
      WorkloadTemplate := { service.Spec.WorkloadTemplate with
        LeaderWorkerTemplate := { WorkerTemplate := { Spec := { Containers :=
          match service.Spec.WorkloadTemplate.LeaderWorkerTemplate.WorkerTemplate.Spec.Containers
            with
          | some (container :: rest) => some ({ container with Resources := resources } :: rest)
          | other => other } } } } } }

/-- The workload with the image of its first container replaced. -/
def Service.withRunnerImage (service : Service) (image : String) : Service :=
  { service with
    Spec := { service.Spec with
      WorkloadTemplate := { service.Spec.WorkloadTemplate with
        LeaderWorkerTemplate := { WorkerTemplate := { Spec := { Containers :=
          match service.Spec.WorkloadTemplate.LeaderWorkerTemplate.WorkerTemplate.Spec.Containers
            with
          | some (container :: rest) => some ({ container with Image := image } :: rest)
          | other => other } } } } } }

/-- A backend configuration naming `vllm` with the given arguments. -/
def backendWithArgs (args : List String) : BackendConfig :=
  { backendNamed (some "vllm") with Args := some args }

/-- A backend configuration naming `vllm` with an explicit limit of 4 on `cpu`. -/
def backendWithLimit : BackendConfig :=
  { backendNamed (some "vllm") with
    Resources := some { Limits := [("cpu", { value := 4, text := "4" })], Requests := [] } }

/-! ## Definitions for `test/util/wrapper/playground.go` -/

/-- The type `PlaygroundWrapper`, a struct that embeds the playground. -/
abbrev PlaygroundWrapper := Playground

/-- The function `MakePlayground`: name and namespace set, all else zero. -/
def MakePlayground (name ns : String) : PlaygroundWrapper :=
  { Name := name, Namespace := ns, Labels := none,
    Spec := { ModelClaim := none, MultiModelsClaim := none, BackendConfig := none,
              Replicas := none } }

/-- The loops `for _, name := range ... { names = append(names, ...) }` of the
wrapper: the names are appended one by one to an empty non-nil slice. -/
def appendAll (names : List String) : List String :=
  names.foldl (fun acc name => acc ++ [name]) []

/-- The method `PlaygroundWrapper.ModelClaim`. -/
def PlaygroundWrapper.ModelClaim (w : PlaygroundWrapper) (modelName : String)
    (flavorNames : List String) : PlaygroundWrapper :=
  let names := appendAll flavorNames
  let w : PlaygroundWrapper :=
    { w with Spec := { w.Spec with
        ModelClaim := some { ModelName := modelName, InferenceFlavors := none } } }
  if names.length > 0 then
    { w with Spec := { w.Spec with
        ModelClaim := some { ModelName := modelName, InferenceFlavors := some names } } }
  else w

/-- The method `PlaygroundWrapper.MultiModelsClaim`.  The flavors are assigned
through `w.Spec.ModelClaim`, a pointer, which the run-time dereferences. -/
def PlaygroundWrapper.MultiModelsClaim (w : PlaygroundWrapper) (modelNames : List String)
    (mode : InferenceMode) (flavorNames : List String) : Except Panic PlaygroundWrapper :=
  let mNames := appendAll modelNames
  let fNames := appendAll flavorNames
  let w : PlaygroundWrapper :=
    { w with Spec := { w.Spec with
        MultiModelsClaim :=
          some { ModelNames := some mNames, InferenceMode := mode, InferenceFlavors := none } } }
  if fNames.length > 0 then
    match w.Spec.ModelClaim with
    | none => .error Panic.nilDereference
    | some modelClaim =>
      .ok { w with Spec := { w.Spec with
              ModelClaim := some { modelClaim with InferenceFlavors := some fNames } } }
  else .ok w

/-! ## Auxiliary facts -/


theorem foldl_append_singleton {α β : Type} (f : α → β) (l : List α) (init : List β) :
    l.foldl (fun acc a => acc ++ [f a]) init = init ++ l.map f := by
  induction l generalizing init with
  | nil => simp
  | cons a l ih => simp [ih]

theorem ToAggregate.loop_of_nodup (quote : String → String) (l : List Error) :
    ∀ (errorMsgs : List String) (errs : List Error),
      (l.map (Error.Error quote)).Nodup →
      (∀ e ∈ l, e.Error quote ∉ errorMsgs) →
      ToAggregate.loop quote l errorMsgs errs = errs ++ l := by
  induction l with
  | nil => intro _ errs _ _; simp [ToAggregate.loop]
  | cons e l ih =>
    intro errorMsgs errs hnd hseen
    have hnd' : e.Error quote ∉ l.map (Error.Error quote) ∧ (l.map (Error.Error quote)).Nodup := by
      simpa using hnd
    have he : e.Error quote ∉ errorMsgs := hseen e (by simp)
    rw [ToAggregate.loop]
    simp only [he, if_false]
    rw [ih _ _ hnd'.2]
    · simp
    · intro e' he' hmem
      rcases List.mem_cons.mp hmem with h | h
      · exact hnd'.1 (h ▸ List.mem_map_of_mem _ he')
      · exact hseen e' (List.mem_cons_of_mem _ he') h

theorem ToAggregate_of_nodup (quote : String → String) (l : List Error)
    (h : (l.map (Error.Error quote)).Nodup) : ToAggregate quote l = l := by
  unfold ToAggregate
  split
  · rename_i h0; exact (List.length_eq_zero.mp h0).symm
  · rw [ToAggregate.loop_of_nodup quote l [] [] h (by simp)]; simp

theorem string_append_left_cancel {a b c : String} (h : a ++ b = a ++ c) : b = c := by
  have h' := congrArg String.data h
  simp only [String.data_append] at h'
  exact String.ext (List.append_cancel_left h')

theorem forbidden_message (quote : String → String) (e : Error)
    (h : e.Type_ = .ErrorTypeForbidden) :
    e.Error quote = e.Error id := by
  simp [Error.Error, Error.ErrorBody, h]

set_option maxRecDepth 8000 in
theorem forbidden_messages_ne (quote : String → String) :
    specForbidden.Error quote ≠ inferenceModeForbidden.Error quote ∧
    specForbidden.Error quote ≠ modelNamesForbidden.Error quote ∧
    inferenceModeForbidden.Error quote ≠ modelNamesForbidden.Error quote := by
  rw [forbidden_message quote specForbidden rfl, forbidden_message quote inferenceModeForbidden rfl,
    forbidden_message quote modelNamesForbidden rfl]
  decide

theorem message_head (quote : String → String) (e : Error) (c : Char) (cs : List Char)
    (h : e.Field.data = c :: cs) : (e.Error quote).data.head? = some c := by
  simp [Error.Error, String.data_append, h]

set_option maxRecDepth 8000 in
theorem invalid_message_ne_forbidden (quote : String → String) (name detail : String) (e : Error)
    (he : e = specForbidden ∨ e = inferenceModeForbidden ∨ e = modelNamesForbidden) :
    e.Error quote ≠ (Invalid (NewPath "metadata.name") name detail).Error quote := by
  intro h
  have h1 : (e.Error quote).data.head? = some 's' := by
    rcases he with rfl | rfl | rfl
    · exact message_head quote _ 's' "pec".data (by decide)
    · exact message_head quote _ 's' "pec.multiModelsClaim.inferenceMode".data (by decide)
    · exact message_head quote _ 's' "pec.multiModelsClaim.modelNames".data (by decide)
  have h2 : ((Invalid (NewPath "metadata.name") name detail).Error quote).data.head? = some 'm' :=
    message_head quote _ 'm' "etadata.name".data
      (show (NewPath "metadata.name").String.data = _ by decide)
  rw [h, h2] at h1
  exact absurd h1 (by decide)

theorem invalid_messages_ne (quote : String → String) (name d₁ d₂ : String)
    (h1 : d₁.utf8ByteSize ≠ 0) (h2 : d₂.utf8ByteSize ≠ 0) (hne : d₁ ≠ d₂) :
    (Invalid (NewPath "metadata.name") name d₁).Error quote ≠
      (Invalid (NewPath "metadata.name") name d₂).Error quote := by
  intro h
  simp only [Error.Error, Error.ErrorBody, Invalid, h1, h2, ne_eq, not_false_eq_true, if_true] at h
  exact hne (string_append_left_cancel (string_append_left_cancel h))

set_option maxRecDepth 8000 in
theorem name_details_ne :
    (maxLenError.utf8ByteSize ≠ 0 ∧ dotsError.utf8ByteSize ≠ 0 ∧
      dns1123LabelRegexError.utf8ByteSize ≠ 0) ∧
    maxLenError ≠ dotsError ∧ maxLenError ≠ dns1123LabelRegexError ∧
    dotsError ≠ dns1123LabelRegexError := by
  decide

theorem generateValidate_eq (r : Playground) :
    generateValidate r =
      if speculativeDecoding r && backendNameMissing r then .error .nilDereference
      else .ok (ruleViolations r) := by
  obtain ⟨name, ns, labels, mc, mmc, bc, rep⟩ := r
  cases mc <;> cases mmc <;>
    simp [generateValidate, speculativeDecoding, backendNameMissing, ruleViolations,
      bothClaimsNil, explicitNonVLLMBackend, modelNamesNotTwo, specForbidden, pure, Except.pure]
  all_goals
    rename_i m
    by_cases hs : m.InferenceMode = InferenceMode.SpeculativeDecoding
    all_goals simp [hs]
  all_goals
    cases bc with
    | none => simp [pure, Except.pure, bind, Except.bind, modelNamesForbidden]
    | some b =>
      obtain ⟨bn, bv, ba, be, br⟩ := b
      cases bn <;>
        simp [pure, Except.pure, bind, Except.bind, throw, throwThe, MonadExceptOf.throw,
          modelNamesForbidden, inferenceModeForbidden]
      split_ifs <;> simp

theorem allViolations_messages_nodup (quote : String → String) (name : String) :
    ((allViolations name).map (Error.Error quote)).Nodup := by
  have hf := forbidden_messages_ne quote
  have h1 := fun d => invalid_message_ne_forbidden quote name d specForbidden (Or.inl rfl)
  have h2 := fun d => invalid_message_ne_forbidden quote name d inferenceModeForbidden
    (Or.inr (Or.inl rfl))
  have h3 := fun d => invalid_message_ne_forbidden quote name d modelNamesForbidden
    (Or.inr (Or.inr rfl))
  obtain ⟨⟨s1, s2, s3⟩, n12, n13, n23⟩ := name_details_ne
  have h4 := invalid_messages_ne quote name
  simp only [allViolations, List.map_cons, List.map_nil, List.nodup_cons, List.mem_cons,
    List.mem_singleton, List.not_mem_nil, not_or, not_false_eq_true, List.nodup_nil, and_true]
  exact ⟨⟨hf.1, hf.2.1, h1 _, h1 _, h1 _⟩, ⟨hf.2.2, h2 _, h2 _, h2 _⟩, ⟨h3 _, h3 _, h3 _⟩,
    ⟨h4 _ _ s1 s2 n12, h4 _ _ s1 s3 n13⟩, h4 _ _ s2 s3 n23⟩

theorem ite_singleton_append_sublist {α : Type} (c : Bool) (a : α) {l l' : List α}
    (h : l.Sublist l') : ((if c then [a] else []) ++ l).Sublist (a :: l') := by
  cases c
  · simpa using h.cons a
  · simpa using h.cons₂ a

theorem nameErrors_eq (name : String) :
    nameErrors name =
      (if decide (name.utf8ByteSize > DNS1123LabelMaxLength)
        then [Invalid (NewPath "metadata.name") name maxLenError] else []) ++
      ((if !dns1123LabelMatch name.data && dns1123SubdomainMatch name.data
        then [Invalid (NewPath "metadata.name") name dotsError] else []) ++
      ((if !dns1123LabelMatch name.data && !dns1123SubdomainMatch name.data
        then [Invalid (NewPath "metadata.name") name dns1123LabelRegexError] else []) ++ [])) := by
  unfold nameErrors IsDNS1123Label
  by_cases h1 : name.utf8ByteSize > DNS1123LabelMaxLength <;>
    cases h2 : dns1123LabelMatch name.data <;>
    cases h3 : dns1123SubdomainMatch name.data <;> simp [h1]

theorem violations_sublist (r : Playground) (name : String) :
    (ruleViolations r ++ nameErrors name).Sublist (allViolations name) := by
  rw [nameErrors_eq, ruleViolations, List.append_assoc, List.append_assoc]
  exact ite_singleton_append_sublist _ _ (ite_singleton_append_sublist _ _
    (ite_singleton_append_sublist _ _ (ite_singleton_append_sublist _ _
      (ite_singleton_append_sublist _ _ (ite_singleton_append_sublist _ _
        (List.Sublist.refl _))))))

theorem ToAggregate_violations (quote : String → String) (r : Playground) (name : String) :
    ToAggregate quote (ruleViolations r ++ nameErrors name) = ruleViolations r ++ nameErrors name :=
  ToAggregate_of_nodup quote _
    (((violations_sublist r name).map _).nodup (allViolations_messages_nodup quote name))

theorem ToAggregate_ruleViolations (quote : String → String) (r : Playground) :
    ToAggregate quote (ruleViolations r) = ruleViolations r :=
  ToAggregate_of_nodup quote _
    (((((List.sublist_append_left _ _).trans (violations_sublist r "")).map _)).nodup
      (allViolations_messages_nodup quote ""))

theorem ValidateCreate_eq (quote : String → String) (r : Playground) :
    ValidateCreate quote r =
      (generateValidate r).map (fun allErrs => allErrs ++ nameErrors r.Name) := by
  rw [ValidateCreate, generateValidate_eq]
  split
  · rfl
  · simp only [bind, Except.bind, pure, Except.pure, Except.map, foldl_append_singleton]
    exact congrArg Except.ok (ToAggregate_violations quote r r.Name)

theorem ValidateUpdate_eq (quote : String → String) (oldObj newObj : Playground) :
    ValidateUpdate quote oldObj newObj = generateValidate newObj := by
  rw [ValidateUpdate, generateValidate_eq]
  split
  · rfl
  · simp only [bind, Except.bind, pure, Except.pure]
    exact congrArg Except.ok (ToAggregate_ruleViolations quote newObj)

/-! ## Claims on the validator -/

theorem mem_nameErrors_field {name : String} {v : Error} (h : v ∈ nameErrors name) :
    v.Type_ = ErrorType.ErrorTypeInvalid ∧ v.Field = "metadata.name" := by
  obtain ⟨d, -, rfl⟩ := List.mem_map.mp h
  exact ⟨rfl, show (NewPath "metadata.name").String = _ by decide⟩

theorem mem_ruleViolations {r : Playground} {v : Error} (h : v ∈ ruleViolations r) :
    (v = specForbidden ∧ bothClaimsNil r = true) ∨
    (v = inferenceModeForbidden ∧ speculativeDecoding r = true ∧ explicitNonVLLMBackend r = true) ∨
    (v = modelNamesForbidden ∧ speculativeDecoding r = true ∧ modelNamesNotTwo r = true) := by
  unfold ruleViolations at h
  simp only [List.mem_append] at h
  rcases h with (h | h) | h
  · split at h
    · rename_i hc; exact Or.inl ⟨by simpa using h, hc⟩
    · simp at h
  · split at h
    · rename_i hc; exact Or.inr (Or.inl ⟨by simpa using h, by simpa using hc⟩)
    · simp at h
  · split at h
    · rename_i hc; exact Or.inr (Or.inr ⟨by simpa using h, by simpa using hc⟩)
    · simp at h

/-- C1: when both `modelClaim` and `multiModelsClaim` are nil, `generateValidate`,
`ValidateCreate` and `ValidateUpdate` each return a non-empty list that holds the
forbidden-violation at path `spec` with the message "modelClaim and
multiModelsClaim couldn't be both nil"; when at least one claim is set, no list
returned by any of the three holds a violation at path `spec`. -/
theorem spec_violation_iff_no_claim (quote : String → String) (r oldObj : Playground) :
    (r.Spec.ModelClaim = none → r.Spec.MultiModelsClaim = none →
      ∀ result ∈ [generateValidate r, ValidateCreate quote r, ValidateUpdate quote oldObj r],
        ∃ l, result = .ok l ∧ l ≠ [] ∧
          Error.mk ErrorType.ErrorTypeForbidden "spec" ""
            "modelClaim and multiModelsClaim couldn\x27t be both nil" ∈ l) ∧
    ((r.Spec.ModelClaim ≠ none ∨ r.Spec.MultiModelsClaim ≠ none) →
      ∀ result ∈ [generateValidate r, ValidateCreate quote r, ValidateUpdate quote oldObj r],
        ∀ l, result = .ok l → ∀ v ∈ l, v.Field ≠ "spec") := by
  have hspec : Error.mk ErrorType.ErrorTypeForbidden "spec" ""
      "modelClaim and multiModelsClaim couldn\x27t be both nil" = specForbidden := by decide
  rw [ValidateCreate_eq, ValidateUpdate_eq, generateValidate_eq, hspec]
  constructor
  · intro h1 h2
    have hs : speculativeDecoding r = false := by simp [speculativeDecoding, h2]
    have hb : bothClaimsNil r = true := by simp [bothClaimsNil, h1, h2]
    have hr : ruleViolations r = [specForbidden] := by
      simp [ruleViolations, hs, hb]
    simp [hs, hr, Except.map]
  · intro h result hres l hl v hv
    have hb : bothClaimsNil r = false := by
      rcases h with h | h
      · cases hm : r.Spec.ModelClaim <;> simp_all [bothClaimsNil]
      · cases hm : r.Spec.MultiModelsClaim <;> simp_all [bothClaimsNil]
    have hrule : ∀ v ∈ ruleViolations r, v.Field ≠ "spec" := by
      intro v hv
      rcases mem_ruleViolations hv with ⟨_, h⟩ | ⟨rfl, _⟩ | ⟨rfl, _⟩
      · simp [hb] at h
      · decide
      · decide
    by_cases hp : (speculativeDecoding r && backendNameMissing r) = true
    · simp [hp, Except.map] at hres
      subst hres; cases hl
    · simp only [hp, if_false, Except.map, List.mem_cons, List.mem_singleton,
        List.not_mem_nil, or_false] at hres
      rcases hres with rfl | rfl | rfl
      · cases hl; exact hrule v hv
      · cases hl
        rcases List.mem_append.mp hv with hv | hv
        · exact hrule v hv
        · rw [(mem_nameErrors_field hv).2]; decide
      · cases hl; exact hrule v hv

theorem results_ok (quote : String → String) (r oldObj : Playground)
    (hp : (speculativeDecoding r && backendNameMissing r) = false) :
    ∀ result ∈ [generateValidate r, ValidateCreate quote r, ValidateUpdate quote oldObj r],
      ∃ extra, result = .ok (ruleViolations r ++ extra) ∧
        ∀ v ∈ extra, v.Type_ = ErrorType.ErrorTypeInvalid ∧ v.Field = "metadata.name" := by
  intro result hres
  rw [ValidateCreate_eq, ValidateUpdate_eq, generateValidate_eq] at hres
  simp only [hp, Bool.false_eq_true, if_false, Except.map, List.mem_cons, List.mem_singleton,
    List.not_mem_nil, or_false] at hres
  rcases hres with rfl | rfl | rfl
  · exact ⟨[], by simp, by simp⟩
  · exact ⟨nameErrors r.Name, rfl, fun v hv => mem_nameErrors_field hv⟩
  · exact ⟨[], by simp, by simp⟩

theorem results_error (quote : String → String) (r oldObj : Playground)
    (hp : (speculativeDecoding r && backendNameMissing r) = true) :
    ∀ result ∈ [generateValidate r, ValidateCreate quote r, ValidateUpdate quote oldObj r],
      result = .error Panic.nilDereference := by
  intro result hres
  rw [ValidateCreate_eq, ValidateUpdate_eq, generateValidate_eq] at hres
  simpa [hp, Except.map] using hres

theorem mem_violations_inferenceMode {r : Playground} {extra : List Error} {v : Error}
    (hextra : ∀ v ∈ extra, v.Type_ = ErrorType.ErrorTypeInvalid ∧ v.Field = "metadata.name")
    (hv : v ∈ ruleViolations r ++ extra)
    (hf : v.Field = "spec.multiModelsClaim.inferenceMode") :
    v = inferenceModeForbidden ∧ speculativeDecoding r = true ∧
      explicitNonVLLMBackend r = true := by
  rcases List.mem_append.mp hv with hv | hv
  · rcases mem_ruleViolations hv with ⟨rfl, _⟩ | ⟨rfl, h⟩ | ⟨rfl, _⟩
    · exact absurd hf (by decide)
    · exact ⟨rfl, h⟩
    · exact absurd hf (by decide)
  · rw [(hextra v hv).2] at hf
    exact absurd hf (by decide)

theorem inferenceModeForbidden_mem {r : Playground} (h1 : speculativeDecoding r = true)
    (h2 : explicitNonVLLMBackend r = true) : inferenceModeForbidden ∈ ruleViolations r := by
  simp [ruleViolations, h1, h2]

theorem modelNamesForbidden_mem {r : Playground} (h1 : speculativeDecoding r = true)
    (h2 : modelNamesNotTwo r = true) : modelNamesForbidden ∈ ruleViolations r := by
  simp [ruleViolations, h1, h2]

/-- C3: for a request in speculative-decoding mode whose backend configuration
names a backend `n`, `generateValidate`, `ValidateCreate` and `ValidateUpdate`
each return a list, and that list holds a forbidden-violation at path
`spec.multiModelsClaim.inferenceMode` if and only if `n` is not vLLM; with
`n` = vLLM, and with no backend configuration at all, the list holds no
violation of any kind at that path. -/
theorem inferenceMode_violation_iff_not_vllm (quote : String → String) (r oldObj : Playground)
    (m : MultiModelsClaim) (hm : r.Spec.MultiModelsClaim = some m)
    (hs : m.InferenceMode = InferenceMode.SpeculativeDecoding) :
    (∀ bc n, r.Spec.BackendConfig = some bc → bc.Name = some n →
      ∀ result ∈ [generateValidate r, ValidateCreate quote r, ValidateUpdate quote oldObj r],
        ∃ l, result = .ok l ∧
          ((∃ v ∈ l, v.Type_ = ErrorType.ErrorTypeForbidden ∧
              v.Field = "spec.multiModelsClaim.inferenceMode") ↔ n ≠ VLLM) ∧
          (n = VLLM → ∀ v ∈ l, v.Field ≠ "spec.multiModelsClaim.inferenceMode")) ∧
    (r.Spec.BackendConfig = none →
      ∀ result ∈ [generateValidate r, ValidateCreate quote r, ValidateUpdate quote oldObj r],
        ∃ l, result = .ok l ∧ ∀ v ∈ l, v.Field ≠ "spec.multiModelsClaim.inferenceMode") := by
  have hspec : speculativeDecoding r = true := by simp [speculativeDecoding, hm, hs]
  constructor
  · intro bc n hbc hn result hres
    have hmiss : (speculativeDecoding r && backendNameMissing r) = false := by
      simp [backendNameMissing, hbc, hn]
    have hexp : explicitNonVLLMBackend r = true ↔ n ≠ VLLM := by
      simp [explicitNonVLLMBackend, hbc, hn]
    obtain ⟨extra, rfl, hextra⟩ := results_ok quote r oldObj hmiss result hres
    refine ⟨_, rfl, ⟨?_, ?_⟩, ?_⟩
    · rintro ⟨v, hv, -, hf⟩
      exact hexp.mp (mem_violations_inferenceMode hextra hv hf).2.2
    · intro hne
      exact ⟨inferenceModeForbidden,
        List.mem_append_left _ (inferenceModeForbidden_mem hspec (hexp.mpr hne)), rfl, by decide⟩
    · intro heq v hv hf
      exact hexp.mp (mem_violations_inferenceMode hextra hv hf).2.2 heq
  · intro hbc result hres
    have hmiss : (speculativeDecoding r && backendNameMissing r) = false := by
      simp [backendNameMissing, hbc]
    obtain ⟨extra, rfl, hextra⟩ := results_ok quote r oldObj hmiss result hres
    refine ⟨_, rfl, fun v hv hf => ?_⟩
    have := (mem_violations_inferenceMode hextra hv hf).2.2
    simp [explicitNonVLLMBackend, hbc] at this

/-- C3, at concrete requests: backend `sglang` is flagged, backend `vllm` and an
absent backend configuration are not. -/
theorem inferenceMode_violation_iff_not_vllm_witness :
    (∀ result ∈ [generateValidate badPlayground, ValidateCreate quoteAscii badPlayground,
        ValidateUpdate quoteAscii samplePlayground badPlayground],
      ∃ l, result = .ok l ∧
        ((∃ v ∈ l, v.Type_ = ErrorType.ErrorTypeForbidden ∧
            v.Field = "spec.multiModelsClaim.inferenceMode") ↔ "sglang" ≠ VLLM) ∧
        ("sglang" = VLLM → ∀ v ∈ l, v.Field ≠ "spec.multiModelsClaim.inferenceMode")) ∧
    (∀ result ∈ [generateValidate (speculativePlayground none),
        ValidateCreate quoteAscii (speculativePlayground none),
        ValidateUpdate quoteAscii samplePlayground (speculativePlayground none)],
      ∃ l, result = .ok l ∧ ∀ v ∈ l, v.Field ≠ "spec.multiModelsClaim.inferenceMode") :=
  ⟨(inferenceMode_violation_iff_not_vllm quoteAscii badPlayground samplePlayground
      (multiClaim ["a", "b", "c"] InferenceMode.SpeculativeDecoding) rfl rfl).1
      (backendNamed (some "sglang")) "sglang" rfl rfl,
   (inferenceMode_violation_iff_not_vllm quoteAscii (speculativePlayground none) samplePlayground
      (multiClaim ["target", "draft"] InferenceMode.SpeculativeDecoding) rfl rfl).2 rfl⟩

theorem specForbidden_mem {r : Playground} (h : bothClaimsNil r = true) :
    specForbidden ∈ ruleViolations r := by
  simp [ruleViolations, h]

theorem modelNames_violation_when_named (quote : String → String) (r oldObj : Playground)
    (m : MultiModelsClaim) (hm : r.Spec.MultiModelsClaim = some m)
    (hs : m.InferenceMode = InferenceMode.SpeculativeDecoding) (hlen : m.ModelNames.len ≠ 2)
    (hname : backendNameMissing r = false) :
    ∀ result ∈ [generateValidate r, ValidateCreate quote r, ValidateUpdate quote oldObj r],
      ∃ l, result = .ok l ∧ modelNamesForbidden ∈ l := by
  intro result hres
  have hspec : speculativeDecoding r = true := by simp [speculativeDecoding, hm, hs]
  have hnot : modelNamesNotTwo r = true := by simp [modelNamesNotTwo, hm, hlen]
  obtain ⟨extra, rfl, -⟩ := results_ok quote r oldObj (by simp [hname]) result hres
  exact ⟨_, rfl, List.mem_append_left _ (modelNamesForbidden_mem hspec hnot)⟩

/-- C2, the code at the failing input: a speculative-decoding request with one
model name and a backend configuration without a name gets no violation list
from `generateValidate`, `ValidateCreate` or `ValidateUpdate`; each fails on
the nil `Name` before the model names are counted. -/
theorem modelNames_rule_unreached_on_nameless_backend (quote : String → String)
    (oldObj : Playground) :
    speculativeDecoding oneModelNamelessPlayground = true ∧
    modelNamesNotTwo oneModelNamelessPlayground = true ∧
    ∀ result ∈ [generateValidate oneModelNamelessPlayground,
        ValidateCreate quote oneModelNamelessPlayground,
        ValidateUpdate quote oldObj oneModelNamelessPlayground],
      result = .error Panic.nilDereference :=
  ⟨by decide, by decide, results_error quote _ oldObj (by decide)⟩

/-- C6, the code at the failing input: on a speculative-decoding request whose
backend configuration is present without a name, `generateValidate`,
`ValidateCreate` and `ValidateUpdate` fail on a nil dereference and return no
violation list. -/
theorem validator_fails_on_nameless_backend (quote : String → String) (oldObj : Playground) :
    generateValidate (speculativePlayground (some (backendNamed none)))
      = .error Panic.nilDereference ∧
    ValidateCreate quote (speculativePlayground (some (backendNamed none)))
      = .error Panic.nilDereference ∧
    ValidateUpdate quote oldObj (speculativePlayground (some (backendNamed none)))
      = .error Panic.nilDereference := by
  have h := results_error quote (speculativePlayground (some (backendNamed none))) oldObj
    (by decide)
  exact ⟨h _ (by simp), h _ (by simp), h _ (by simp)⟩

/-- C7 as stated fails: the request with both claims set is accepted by
`ValidateCreate` and by `ValidateUpdate`, and it does not have exactly one
claim set. -/
theorem both_claims_accepted :
    ValidateCreate quoteAscii bothClaimsPlayground = .ok [] ∧
    ValidateUpdate quoteAscii samplePlayground bothClaimsPlayground = .ok [] ∧
    ¬ ((bothClaimsPlayground.Spec.ModelClaim ≠ none ∧
          bothClaimsPlayground.Spec.MultiModelsClaim = none) ∨
       (bothClaimsPlayground.Spec.ModelClaim = none ∧
          bothClaimsPlayground.Spec.MultiModelsClaim ≠ none)) := by
  refine ⟨?_, ?_, by decide⟩
  · rw [ValidateCreate_eq]; decide
  · rw [ValidateUpdate_eq]; decide

/-- C7, amended: every request that `ValidateCreate` or `ValidateUpdate` accepts
(the returned violation list is empty) has at least one of `modelClaim` and
`multiModelsClaim` set. -/
theorem accepted_has_a_claim (quote : String → String) (r oldObj : Playground)
    (h : ValidateCreate quote r = .ok [] ∨ ValidateUpdate quote oldObj r = .ok []) :
    r.Spec.ModelClaim ≠ none ∨ r.Spec.MultiModelsClaim ≠ none := by
  by_contra hcon
  have hnone : r.Spec.ModelClaim = none ∧ r.Spec.MultiModelsClaim = none := by
    constructor <;> by_contra hx <;> exact hcon (by simp [hx])
  have hs : speculativeDecoding r = false := by simp [speculativeDecoding, hnone.2]
  have hmem : specForbidden ∈ ruleViolations r :=
    specForbidden_mem (by simp [bothClaimsNil, hnone.1, hnone.2])
  have hres := results_ok quote r oldObj (by simp [hs])
  rcases h with h | h
  · obtain ⟨extra, hl, -⟩ := hres (ValidateCreate quote r) (by simp)
    rw [h] at hl
    have := Except.ok.inj hl ▸ List.mem_append_left extra hmem
    simp at this
  · obtain ⟨extra, hl, -⟩ := hres (ValidateUpdate quote oldObj r) (by simp)
    rw [h] at hl
    have := Except.ok.inj hl ▸ List.mem_append_left extra hmem
    simp at this

/-- C7, amended, at the sample playground, which `ValidateCreate` accepts. -/
theorem accepted_has_a_claim_witness :
    (ValidateCreate quoteAscii samplePlayground = .ok [] ∨
      ValidateUpdate quoteAscii samplePlayground samplePlayground = .ok []) ∧
    (samplePlayground.Spec.ModelClaim ≠ none ∨ samplePlayground.Spec.MultiModelsClaim ≠ none) :=
  ⟨Or.inl (by rw [ValidateCreate_eq]; decide),
   accepted_has_a_claim quoteAscii samplePlayground samplePlayground
     (Or.inl (by rw [ValidateCreate_eq]; decide))⟩

/-- C1, at concrete requests: the request without a claim gets the `spec`
violation from all three functions, the sample playground gets none. -/
theorem spec_violation_iff_no_claim_witness :
    (∀ result ∈ [generateValidate noClaimPlayground, ValidateCreate quoteAscii noClaimPlayground,
        ValidateUpdate quoteAscii samplePlayground noClaimPlayground],
      ∃ l, result = .ok l ∧ l ≠ [] ∧
        Error.mk ErrorType.ErrorTypeForbidden "spec" ""
          "modelClaim and multiModelsClaim couldn\x27t be both nil" ∈ l) ∧
    (∀ result ∈ [generateValidate samplePlayground, ValidateCreate quoteAscii samplePlayground,
        ValidateUpdate quoteAscii noClaimPlayground samplePlayground],
      ∀ l, result = .ok l → ∀ v ∈ l, v.Field ≠ "spec") :=
  ⟨(spec_violation_iff_no_claim quoteAscii noClaimPlayground samplePlayground).1 rfl rfl,
   (spec_violation_iff_no_claim quoteAscii samplePlayground noClaimPlayground).2
     (Or.inl (by decide))⟩

/-- C10: `ValidateCreate` returns a list unless the request is in
speculative-decoding mode with a backend configuration that carries no name,
and every list it returns is exactly the concatenation, in this order, of the
`spec` forbidden-violation if both claims are nil, the
`spec.multiModelsClaim.inferenceMode` forbidden-violation if speculative
decoding with an explicit non-vLLM backend, the
`spec.multiModelsClaim.modelNames` forbidden-violation if speculative decoding
with a number of model names other than 2, and one invalid-violation at
`metadata.name` per error of `IsDNS1123Label` on the name. -/
theorem ValidateCreate_accumulates (quote : String → String) (r : Playground) :
    ((speculativeDecoding r && backendNameMissing r) = false →
      ∃ l, ValidateCreate quote r = .ok l) ∧
    ∀ l, ValidateCreate quote r = .ok l →
      l =
        (if r.Spec.ModelClaim = none ∧ r.Spec.MultiModelsClaim = none then
          [Error.mk ErrorType.ErrorTypeForbidden "spec" ""
            "modelClaim and multiModelsClaim couldn\x27t be both nil"] else []) ++
        (if speculativeDecoding r = true ∧ explicitNonVLLMBackend r = true then
          [Error.mk ErrorType.ErrorTypeForbidden "spec.multiModelsClaim.inferenceMode" ""
            "only vLLM supports speculativeDecoding mode"] else []) ++
        (if speculativeDecoding r = true ∧ modelNamesNotTwo r = true then
          [Error.mk ErrorType.ErrorTypeForbidden "spec.multiModelsClaim.modelNames" ""
            "only two models are allowed in speculativeDecoding mode"] else []) ++
        (IsDNS1123Label r.Name).map
          (fun err => Error.mk ErrorType.ErrorTypeInvalid "metadata.name" r.Name err) := by
  have e1 : Error.mk ErrorType.ErrorTypeForbidden "spec" ""
      "modelClaim and multiModelsClaim couldn\x27t be both nil" = specForbidden := by decide
  have e2 : Error.mk ErrorType.ErrorTypeForbidden "spec.multiModelsClaim.inferenceMode" ""
      "only vLLM supports speculativeDecoding mode" = inferenceModeForbidden := by decide
  have e3 : Error.mk ErrorType.ErrorTypeForbidden "spec.multiModelsClaim.modelNames" ""
      "only two models are allowed in speculativeDecoding mode" = modelNamesForbidden := by decide
  have e4 : (fun err => Error.mk ErrorType.ErrorTypeInvalid "metadata.name" r.Name err)
      = Invalid (NewPath "metadata.name") r.Name := by
    funext err
    show _ = Error.mk _ (NewPath "metadata.name").String _ _
    rw [show (NewPath "metadata.name").String = "metadata.name" by decide]
  have hb : (r.Spec.ModelClaim = none ∧ r.Spec.MultiModelsClaim = none) ↔
      bothClaimsNil r = true := by
    simp [bothClaimsNil, Option.isNone_iff_eq_none]
  rw [e1, e2, e3, e4, ValidateCreate_eq, generateValidate_eq]
  constructor
  · intro hp
    simp [hp, Except.map]
  · intro l hl
    split at hl
    · cases hl
    · cases hl
      simp only [ruleViolations, nameErrors, hb, Bool.and_eq_true]

set_option maxRecDepth 8000 in
/-- C10, at the request of the claim: speculative decoding on backend `sglang`
with three model names and the name `Playground_1` gets the inference-mode, the
model-names and the name violation, in this order; and the sample request
under the name `a.b` gets the one name violation for its dot. -/
theorem ValidateCreate_accumulates_witness :
    (speculativeDecoding badPlayground && backendNameMissing badPlayground) = false ∧
    ValidateCreate quoteAscii badPlayground = .ok
      [Error.mk ErrorType.ErrorTypeForbidden "spec.multiModelsClaim.inferenceMode" ""
          "only vLLM supports speculativeDecoding mode",
        Error.mk ErrorType.ErrorTypeForbidden "spec.multiModelsClaim.modelNames" ""
          "only two models are allowed in speculativeDecoding mode",
        Error.mk ErrorType.ErrorTypeInvalid "metadata.name" "Playground_1"
          dns1123LabelRegexError] ∧
    ValidateCreate quoteAscii dottedPlayground = .ok
      [Error.mk ErrorType.ErrorTypeInvalid "metadata.name" "a.b" "must not contain dots"] := by
  refine ⟨by decide, ?_, ?_⟩
  · obtain ⟨l, hl⟩ := (ValidateCreate_accumulates quoteAscii badPlayground).1 (by decide)
    rw [hl, (ValidateCreate_accumulates quoteAscii badPlayground).2 l hl]
    decide
  · obtain ⟨l, hl⟩ := (ValidateCreate_accumulates quoteAscii dottedPlayground).1 (by decide)
    rw [hl, (ValidateCreate_accumulates quoteAscii dottedPlayground).2 l hl]
    decide

/-! ## Claims on the defaulter -/

/-- The model name `Default` writes: the claimed model, else the first of the
claimed models, else the empty string; the index panics on an empty list. -/
theorem Default_ok_iff (r r' : Playground) :
    Default r = .ok r' ↔
      ∃ modelName,
        (match r.Spec.ModelClaim with
          | some modelClaim => Except.ok modelClaim.ModelName
          | none =>
            match r.Spec.MultiModelsClaim with
            | some multiModelsClaim => multiModelsClaim.ModelNames.first
            | none => Except.ok "") = .ok modelName ∧
        r' = { r with Labels := some (Function.update (r.Labels.getD StringMap.empty)
                ModelNameLabelKey (some modelName)) } := by
  unfold Default
  cases hl : r.Labels <;> cases hmc : r.Spec.ModelClaim <;> cases hmm : r.Spec.MultiModelsClaim <;>
    simp [bind, Except.bind, pure, Except.pure, eq_comm]
  all_goals
    rename_i m
    cases m.ModelNames.first <;> simp [eq_comm]

/-- C4 as stated fails: on the request with neither claim set `Default` writes
the empty string at the model-name key, which is neither the name of a claimed
model nor the first entry of a list of model names, the request having none. -/
theorem Default_label_without_claim :
    (∃ r', Default noClaimPlayground = .ok r' ∧ r'.label ModelNameLabelKey = some "") ∧
    ¬ ∃ r' value, Default noClaimPlayground = .ok r' ∧
        r'.label ModelNameLabelKey = some value ∧
        ((∃ modelClaim, noClaimPlayground.Spec.ModelClaim = some modelClaim ∧
            value = modelClaim.ModelName) ∨
         (noClaimPlayground.Spec.ModelClaim = none ∧
            ∃ multiModelsClaim, noClaimPlayground.Spec.MultiModelsClaim = some multiModelsClaim ∧
              multiModelsClaim.ModelNames.first = .ok value)) := by
  constructor
  · exact ⟨_, rfl, by decide⟩
  · rintro ⟨r', value, -, -, ⟨mc, hmc, -⟩ | ⟨-, mm, hmm, -⟩⟩
    · cases hmc
    · cases hmm

/-- C4, amended: `Default` returns a request whose label map exists and holds,
at the model-name key, `modelClaim.modelName` when `modelClaim` is set (also
when `multiModelsClaim` is set too), the first entry of
`multiModelsClaim.modelNames` when only `multiModelsClaim` is set and it names
at least one model, and the empty string when neither claim is set; whatever
the label map held before. -/
theorem Default_sets_model_name_label (r : Playground) :
    (∀ modelClaim, r.Spec.ModelClaim = some modelClaim →
      ∃ r' labels, Default r = .ok r' ∧ r'.Labels = some labels ∧
        labels ModelNameLabelKey = some modelClaim.ModelName) ∧
    (∀ multiModelsClaim name rest, r.Spec.ModelClaim = none →
      r.Spec.MultiModelsClaim = some multiModelsClaim →
      multiModelsClaim.ModelNames = some (name :: rest) →
      ∃ r' labels, Default r = .ok r' ∧ r'.Labels = some labels ∧
        labels ModelNameLabelKey = some name) ∧
    (r.Spec.ModelClaim = none → r.Spec.MultiModelsClaim = none →
      ∃ r' labels, Default r = .ok r' ∧ r'.Labels = some labels ∧
        labels ModelNameLabelKey = some "") := by
  refine ⟨fun mc hmc => ?_, fun mm name rest hmc hmm hnames => ?_, fun hmc hmm => ?_⟩
  · exact ⟨_, _, (Default_ok_iff r _).mpr ⟨mc.ModelName, by simp [hmc], rfl⟩, rfl, by simp⟩
  · exact ⟨_, _, (Default_ok_iff r _).mpr ⟨name, by simp [hmc, hmm, hnames, Slice.first], rfl⟩,
      rfl, by simp⟩
  · exact ⟨_, _, (Default_ok_iff r _).mpr ⟨"", by simp [hmc, hmm], rfl⟩, rfl, by simp⟩

/-- C4, amended, at the requests of the claim: model claim `llama3-8b` gives
label value `llama3-8b`; model names `a`, `b` give label value `a`, over the
stale value the key held; no claim gives the empty string. -/
theorem Default_sets_model_name_label_witness :
    (∃ r' labels, Default samplePlayground = .ok r' ∧ r'.Labels = some labels ∧
      labels ModelNameLabelKey = some "llama3-8b") ∧
    (standardPlayground.label ModelNameLabelKey = some "stale" ∧
      ∃ r' labels, Default standardPlayground = .ok r' ∧ r'.Labels = some labels ∧
        labels ModelNameLabelKey = some "a") ∧
    (∃ r' labels, Default noClaimPlayground = .ok r' ∧ r'.Labels = some labels ∧
      labels ModelNameLabelKey = some "") :=
  ⟨(Default_sets_model_name_label samplePlayground).1 llamaClaim rfl,
   ⟨by decide, (Default_sets_model_name_label standardPlayground).2.1
      (multiClaim ["a", "b"] InferenceMode.Standard) "a" ["b"] rfl rfl rfl⟩,
   (Default_sets_model_name_label noClaimPlayground).2.2 rfl rfl⟩

/-- C5 as stated fails: on a request with no `modelClaim` whose
`multiModelsClaim` has an empty `modelNames`, the access to the first model
name goes out of range and `Default` does not complete. -/
theorem Default_fails_on_empty_modelNames :
    emptyNamesPlayground.Spec.ModelClaim = none ∧
    emptyNamesPlayground.Spec.MultiModelsClaim = some (multiClaim [] InferenceMode.Standard) ∧
    Default emptyNamesPlayground = .error Panic.indexOutOfRange :=
  ⟨rfl, rfl, rfl⟩

/-- C5, amended: `Default` completes and returns no error on every request with
`modelClaim` set, or with neither claim set, or whose `multiModelsClaim` names
at least one model. -/
theorem Default_completes (r : Playground)
    (h : r.Spec.ModelClaim ≠ none ∨ r.Spec.MultiModelsClaim = none ∨
      ∃ multiModelsClaim, r.Spec.MultiModelsClaim = some multiModelsClaim ∧
        1 ≤ multiModelsClaim.ModelNames.len) :
    ∃ r', Default r = .ok r' := by
  cases hmc : r.Spec.ModelClaim with
  | some mc => exact ⟨_, (Default_ok_iff r _).mpr ⟨mc.ModelName, by simp [hmc], rfl⟩⟩
  | none =>
    cases hmm : r.Spec.MultiModelsClaim with
    | none => exact ⟨_, (Default_ok_iff r _).mpr ⟨"", by simp [hmc, hmm], rfl⟩⟩
    | some mm =>
      rcases h with h | h | ⟨mm', hmm', hlen⟩
      · exact absurd hmc h
      · rw [hmm] at h; cases h
      · rw [hmm] at hmm'; cases hmm'
        cases hn : mm.ModelNames with
        | none => simp [hn, Slice.len] at hlen
        | some names =>
          cases names with
          | nil => simp [hn, Slice.len] at hlen
          | cons name rest =>
            exact ⟨_, (Default_ok_iff r _).mpr
              ⟨name, by simp [hmc, hmm, hn, Slice.first], rfl⟩⟩

/-- C5, amended, at three requests: one with a model claim, one with neither
claim, one with two model names. -/
theorem Default_completes_witness :
    (∃ r', Default samplePlayground = .ok r') ∧
    (∃ r', Default noClaimPlayground = .ok r') ∧
    (∃ r', Default standardPlayground = .ok r') :=
  ⟨Default_completes samplePlayground (Or.inl (by decide)),
   Default_completes noClaimPlayground (Or.inr (Or.inl rfl)),
   Default_completes standardPlayground (Or.inr (Or.inr ⟨_, rfl, by decide⟩))⟩

/-- C8: `Default` is idempotent: when `Default` returns `r1` on a request, it
returns `r1` itself on `r1`, the whole object; so every result of a second
application carries the model-name label of the first. -/
theorem Default_idempotent (r r1 : Playground) (h : Default r = .ok r1) :
    Default r1 = .ok r1 ∧
    ∀ r2, Default r1 = .ok r2 → r2.label ModelNameLabelKey = r1.label ModelNameLabelKey := by
  have hidem : Default r1 = .ok r1 := by
    obtain ⟨modelName, hname, rfl⟩ := (Default_ok_iff r r1).mp h
    exact (Default_ok_iff _ _).mpr ⟨modelName, hname, by simp⟩
  refine ⟨hidem, fun r2 h2 => ?_⟩
  rw [hidem] at h2
  cases h2
  rfl

/-- C8, at the request on models `a` and `b` with a stale label. -/
theorem Default_idempotent_witness :
    ∃ r1, Default standardPlayground = .ok r1 ∧ Default r1 = .ok r1 ∧
      r1.label ModelNameLabelKey = some "a" :=
  ⟨{ standardPlayground with
      Labels := some (Function.update
        (Function.update StringMap.empty ModelNameLabelKey (some "stale"))
        ModelNameLabelKey (some "a")) },
    rfl, (Default_idempotent standardPlayground _ rfl).1, by decide⟩

/-- C9: `Default` changes nothing but the model-name label: the returned
request has the name, namespace, `modelClaim`, `multiModelsClaim`,
`backendConfig` and `replicas` of the argument, every label key other than the
model-name key has the value it had (or none), and a nil label map becomes the
map that holds the model-name key only. -/
theorem Default_frame (r r' : Playground) (h : Default r = .ok r') :
    r'.Name = r.Name ∧ r'.Namespace = r.Namespace ∧
    r'.Spec.ModelClaim = r.Spec.ModelClaim ∧
    r'.Spec.MultiModelsClaim = r.Spec.MultiModelsClaim ∧
    r'.Spec.BackendConfig = r.Spec.BackendConfig ∧
    r'.Spec.Replicas = r.Spec.Replicas ∧
    (∀ key, key ≠ ModelNameLabelKey → r'.label key = r.label key) ∧
    (r.Labels = none →
      ∃ modelName, r'.Labels =
        some (fun key => if key = ModelNameLabelKey then some modelName else none)) := by
  obtain ⟨modelName, -, rfl⟩ := (Default_ok_iff r r').mp h
  refine ⟨rfl, rfl, rfl, rfl, rfl, rfl, fun key hkey => ?_, fun hnil => ⟨modelName, ?_⟩⟩
  · cases hl : r.Labels <;>
      simp [Playground.label, hl, Function.update_noteq hkey, StringMap.empty]
  · simp only [hnil, Option.getD_none]
    congr 1
    funext key
    by_cases hk : key = ModelNameLabelKey
    · subst hk; simp
    · simp [hk, StringMap.empty]

/-- C9, at the request on models `a` and `b` that carries a stale label, and at
the sample playground, whose label map is nil. -/
theorem Default_frame_witness :
    ∃ r1 r2, Default standardPlayground = .ok r1 ∧ Default samplePlayground = .ok r2 ∧
      r1.Name = "playground-ab" ∧ r1.Spec = standardPlayground.Spec ∧
      r1.label "other" = standardPlayground.label "other" ∧
      r2.Labels = some (fun key => if key = ModelNameLabelKey then some "llama3-8b" else none) :=
  ⟨{ standardPlayground with
      Labels := some (Function.update
        (Function.update StringMap.empty ModelNameLabelKey (some "stale"))
        ModelNameLabelKey (some "a")) },
   { samplePlayground with
      Labels := some (Function.update StringMap.empty ModelNameLabelKey (some "llama3-8b")) },
   rfl, rfl,
   (Default_frame standardPlayground _ rfl).1, rfl,
   (Default_frame standardPlayground _ rfl).2.2.2.2.2.2.1 "other" (by decide),
   by
     obtain ⟨modelName, hm⟩ := (Default_frame samplePlayground _ rfl).2.2.2.2.2.2.2 rfl
     have hkey := congrFun (Option.some.inj hm) ModelNameLabelKey
     simp at hkey
     subst hkey
     exact hm⟩

/-! ## Claims on the update path and on names -/

theorem utf8Size_of_isLabelChar (c : Char) (h : isLabelChar c = true) : c.utf8Size = 1 := by
  have hle : c.toNat ≤ 127 := by
    simp only [isLabelChar, isLowerAlnum, Bool.or_eq_true, beq_iff_eq, Bool.and_eq_true,
      decide_eq_true_eq] at h
    rcases h with rfl | ⟨_, h⟩ | ⟨_, h⟩
    · decide
    · exact le_trans h (by decide)
    · exact le_trans h (by decide)
  have hv : c.val ≤ UInt32.ofNatCore 127 Char.utf8Size.proof_1 := by
    rw [UInt32.le_def]
    exact hle
  unfold Char.utf8Size
  exact if_pos hv

theorem utf8ByteSize_go_of_isLabelChar (cs : List Char) (h : cs.all isLabelChar = true) :
    String.utf8ByteSize.go cs = cs.length := by
  induction cs with
  | nil => rfl
  | cons c cs ih =>
    simp only [List.all_cons, Bool.and_eq_true] at h
    show String.utf8ByteSize.go cs + c.utf8Size = _
    rw [ih h.2, utf8Size_of_isLabelChar c h.1]
    rfl

theorem isLowerAlnum_ne_hyphen (c : Char) (h : isLowerAlnum c = true) : c ≠ '-' := by
  rintro rfl
  exact absurd h (by decide)

theorem dns1123LabelMatch_iff (cs : List Char) :
    dns1123LabelMatch cs = true ↔
      cs ≠ [] ∧ cs.all isLabelChar = true ∧ cs.head? ≠ some '-' ∧ cs.getLast? ≠ some '-' := by
  cases cs with
  | nil => simp [dns1123LabelMatch]
  | cons c cs =>
    have hhead : isLowerAlnum c = true ↔ (isLabelChar c = true ∧ c ≠ '-') := by
      constructor
      · intro h; exact ⟨by simp [isLabelChar, h], isLowerAlnum_ne_hyphen c h⟩
      · rintro ⟨h, hne⟩
        simpa [isLabelChar, hne] using h
    cases hl : cs.getLast? with
    | none =>
      have hnil : cs = [] := by simpa using hl
      subst hnil
      simp [dns1123LabelMatch, hhead]
    | some last =>
      have hmem : last ∈ cs := List.mem_of_getLast?_eq_some hl
      have hlast : (c :: cs).getLast? = some last := by
        cases cs with
        | nil => simp at hl
        | cons d ds => rw [List.getLast?_cons_cons]; exact hl
      simp only [dns1123LabelMatch, hl, hlast, Bool.and_eq_true, List.all_cons, ne_eq,
        not_false_eq_true, true_and, List.head?_cons, Option.some.injEq, reduceCtorEq]
      constructor
      · rintro ⟨hc, hall, hla⟩
        exact ⟨⟨(hhead.mp hc).1, hall⟩, (hhead.mp hc).2, isLowerAlnum_ne_hyphen _ hla⟩
      · rintro ⟨⟨hc, hall⟩, hne, hla⟩
        refine ⟨hhead.mpr ⟨hc, hne⟩, hall, ?_⟩
        have := List.all_eq_true.mp hall last hmem
        have hla' : last ≠ '-' := fun h => hla h
        simpa [isLabelChar, hla'] using this

theorem IsDNS1123Label_eq_nil_iff (name : String) :
    IsDNS1123Label name = [] ↔ name.data ≠ [] ∧ dnsLabelSyntax name := by
  have hall : (∀ c ∈ name.data, isLowerAlnum c = true ∨ c = '-') ↔
      name.data.all isLabelChar = true := by
    simp only [List.all_eq_true, isLabelChar, Bool.or_eq_true, beq_iff_eq]
    constructor <;> intro h c hc <;> exact (h c hc).symm
  have hsize : name.utf8ByteSize = String.utf8ByteSize.go name.data := by
    cases name; rfl
  unfold dnsLabelSyntax
  rw [hall]
  by_cases hm : dns1123LabelMatch name.data = true
  · have hm' := (dns1123LabelMatch_iff _).mp hm
    have hlen : name.utf8ByteSize = name.length := by
      rw [hsize, utf8ByteSize_go_of_isLabelChar _ hm'.2.1]; rfl
    by_cases hgt : name.utf8ByteSize > DNS1123LabelMaxLength
    · have : ¬ name.length ≤ 63 := by rw [← hlen]; simpa [DNS1123LabelMaxLength] using hgt
      simp [IsDNS1123Label, hm, hgt, this]
    · have : name.length ≤ 63 := by rw [← hlen]; simpa [DNS1123LabelMaxLength] using hgt
      simp [IsDNS1123Label, hm, hgt, this, hm'.1, hm'.2.1, hm'.2.2.1, hm'.2.2.2]
  · have hno : ¬ (name.data ≠ [] ∧ name.data.all isLabelChar = true ∧
        name.data.head? ≠ some '-' ∧ name.data.getLast? ≠ some '-') :=
      fun h => hm ((dns1123LabelMatch_iff _).mpr h)
    have hrhs : ¬ (name.data ≠ [] ∧ name.data.all isLabelChar = true ∧ name.length ≤ 63 ∧
        name.data.head? ≠ some '-' ∧ name.data.getLast? ≠ some '-') :=
      fun h => hno ⟨h.1, h.2.1, h.2.2.2.1, h.2.2.2.2⟩
    simp only [Bool.not_eq_true] at hm
    have hne : IsDNS1123Label name ≠ [] := by
      by_cases hgt : name.utf8ByteSize > DNS1123LabelMaxLength <;>
        cases hsub : dns1123SubdomainMatch name.data <;>
        simp [IsDNS1123Label, hm, hgt, hsub]
    exact ⟨fun h => absurd h hne, fun h => absurd h hrhs⟩

theorem ValidateCreate_ok_iff (quote : String → String) (r : Playground) (l : List Error) :
    ValidateCreate quote r = .ok l ↔
      (speculativeDecoding r && backendNameMissing r) = false ∧
        l = ruleViolations r ++ nameErrors r.Name := by
  rw [ValidateCreate_eq, generateValidate_eq]
  by_cases hp : (speculativeDecoding r && backendNameMissing r) = true
  · simp [hp, Except.map]
  · simp [hp, Except.map, eq_comm]

theorem mem_ruleViolations_forbidden {r : Playground} {v : Error} (h : v ∈ ruleViolations r) :
    v.Type_ = ErrorType.ErrorTypeForbidden ∧ v.Field ≠ "metadata.name" := by
  rcases mem_ruleViolations h with ⟨rfl, _⟩ | ⟨rfl, _⟩ | ⟨rfl, _⟩ <;> exact ⟨rfl, by decide⟩

/-- C11: `ValidateUpdate` gives the same result whatever the previous object,
namely the result of `generateValidate` on the new object; every list it
returns is the list of the claim and mode rules on the new object and holds no
violation at `metadata.name`, whatever the name of the new object. -/
theorem ValidateUpdate_ignores_old_and_name (quote : String → String) (o1 o2 n : Playground) :
    ValidateUpdate quote o1 n = ValidateUpdate quote o2 n ∧
    ValidateUpdate quote o1 n = generateValidate n ∧
    ∀ l, ValidateUpdate quote o1 n = .ok l →
      l = ruleViolations n ∧ ∀ v ∈ l, v.Field ≠ "metadata.name" := by
  refine ⟨by rw [ValidateUpdate_eq, ValidateUpdate_eq], ValidateUpdate_eq quote o1 n, ?_⟩
  intro l hl
  rw [ValidateUpdate_eq, generateValidate_eq] at hl
  split at hl
  · cases hl
  · cases hl
    exact ⟨rfl, fun v hv => (mem_ruleViolations_forbidden hv).2⟩

set_option maxRecDepth 8000 in
/-- C11, at an update to the request named `Playground_1`, which is not a DNS
label: the two rule violations are returned and none at `metadata.name`. -/
theorem ValidateUpdate_ignores_old_and_name_witness :
    IsDNS1123Label badPlayground.Name ≠ [] ∧
    ValidateUpdate quoteAscii samplePlayground badPlayground
      = .ok [inferenceModeForbidden, modelNamesForbidden] ∧
    ∀ v ∈ [inferenceModeForbidden, modelNamesForbidden], v.Field ≠ "metadata.name" := by
  have h := ValidateUpdate_ignores_old_and_name quoteAscii samplePlayground noClaimPlayground
    badPlayground
  have hl : ValidateUpdate quoteAscii samplePlayground badPlayground
      = .ok [inferenceModeForbidden, modelNamesForbidden] := by
    rw [h.2.1]; decide
  exact ⟨by decide, hl, (h.2.2 _ hl).2⟩

set_option maxRecDepth 8000 in
/-- C12 as stated fails: the empty name has only lowercase alphanumerics and
hyphens, at most 63 characters and no hyphen at either end, and `ValidateCreate`
returns an invalid-violation at `metadata.name` for it. -/
theorem empty_name_is_rejected :
    dnsLabelSyntax emptyNamePlayground.Name ∧
    ∃ l, ValidateCreate quoteAscii emptyNamePlayground = .ok l ∧
      ∃ v ∈ l, v.Type_ = ErrorType.ErrorTypeInvalid ∧ v.Field = "metadata.name" := by
  refine ⟨by unfold dnsLabelSyntax; decide, [Invalid (NewPath "metadata.name") ""
    dns1123LabelRegexError], ?_, _, List.mem_singleton.mpr rfl, rfl, by decide⟩
  rw [ValidateCreate_eq]
  decide

/-- C12, amended: `ValidateCreate` returns a list unless the request is in
speculative-decoding mode with a backend configuration without a name, and a
list it returns holds an invalid-violation at `metadata.name` if and only if
the name is not a non-empty string of at most 63 lowercase alphanumerics and
hyphens that neither starts nor ends with a hyphen. -/
theorem name_violation_iff_not_dns_label (quote : String → String) (r : Playground) :
    ((speculativeDecoding r && backendNameMissing r) = false →
      ∃ l, ValidateCreate quote r = .ok l) ∧
    ∀ l, ValidateCreate quote r = .ok l →
      ((∃ v ∈ l, v.Type_ = ErrorType.ErrorTypeInvalid ∧ v.Field = "metadata.name") ↔
        ¬ (r.Name ≠ "" ∧ dnsLabelSyntax r.Name)) := by
  constructor
  · intro hp
    exact ⟨_, (ValidateCreate_ok_iff quote r _).mpr ⟨hp, rfl⟩⟩
  · intro l hl
    obtain ⟨-, rfl⟩ := (ValidateCreate_ok_iff quote r l).mp hl
    have hname : (r.Name ≠ "" ∧ dnsLabelSyntax r.Name) ↔ IsDNS1123Label r.Name = [] := by
      rw [IsDNS1123Label_eq_nil_iff]
      have : r.Name ≠ "" ↔ r.Name.data ≠ [] := by
        constructor
        · intro h hd; exact h (String.ext hd)
        · intro h hn; exact h (by rw [hn])
      rw [this]
    rw [hname]
    constructor
    · rintro ⟨v, hv, hty, -⟩ hnil
      rcases List.mem_append.mp hv with hv | hv
      · rw [(mem_ruleViolations_forbidden hv).1] at hty; cases hty
      · simp [nameErrors, hnil] at hv
    · intro hne
      obtain ⟨d, ds, hd⟩ := List.exists_cons_of_ne_nil hne
      have hmem : Invalid (NewPath "metadata.name") r.Name d ∈ nameErrors r.Name := by
        simp [nameErrors, hd]
      exact ⟨_, List.mem_append_right _ hmem, mem_nameErrors_field hmem⟩

set_option maxRecDepth 8000 in
/-- C12, amended, at the names of the claim: `playground-llama3-8b` gets no
name violation, `Playground_1` gets one. -/
theorem name_violation_iff_not_dns_label_witness :
    (∃ l, ValidateCreate quoteAscii samplePlayground = .ok l ∧
      ¬ ∃ v ∈ l, v.Type_ = ErrorType.ErrorTypeInvalid ∧ v.Field = "metadata.name") ∧
    (∃ l, ValidateCreate quoteAscii badPlayground = .ok l ∧
      ∃ v ∈ l, v.Type_ = ErrorType.ErrorTypeInvalid ∧ v.Field = "metadata.name") := by
  constructor
  · obtain ⟨l, hl⟩ := (name_violation_iff_not_dns_label quoteAscii samplePlayground).1 (by decide)
    refine ⟨l, hl, fun h => ?_⟩
    exact ((name_violation_iff_not_dns_label quoteAscii samplePlayground).2 l hl).mp h
      ⟨by decide, by unfold dnsLabelSyntax; decide⟩
  · obtain ⟨l, hl⟩ := (name_violation_iff_not_dns_label quoteAscii badPlayground).1 (by decide)
    refine ⟨l, hl, ?_⟩
    exact ((name_violation_iff_not_dns_label quoteAscii badPlayground).2 l hl).mpr
      (fun h => absurd h.2 (by unfold dnsLabelSyntax; decide))

/-! ## Claims on the correspondence checker -/

theorem validateModelClaim_eq (k8sClient : Client) (playground : Playground)
    (service : Service) :
    validateModelClaim k8sClient playground service =
      firstFailure [lookupStep k8sClient playground, namesStep playground service,
        flavorsStep playground service, labelStep k8sClient playground] := by
  unfold validateModelClaim lookupStep namesStep flavorsStep labelStep resolvedModel
    claimedFlavors
  cases hmc : playground.Spec.ModelClaim with
  | some mc =>
    dsimp only
    cases hg : k8sClient.GetModel mc.ModelName playground.Namespace with
    | none => simp [firstFailure, bind, Except.bind, throw, throwThe, MonadExceptOf.throw]
    | some model =>
      dsimp only
      cases hf : orPanic service.Spec.MultiModelsClaim.ModelNames.first with
      | error f => simp [firstFailure, bind, Except.bind, pure, Except.pure]
      | ok first =>
        by_cases h1 : mc.ModelName = first <;>
        by_cases h2 : mc.InferenceFlavors = service.Spec.MultiModelsClaim.InferenceFlavors <;>
        by_cases h3 : playground.labelValue ModelNameLabelKey = model.Name <;>
        simp [firstFailure, bind, Except.bind, pure, Except.pure, throw, throwThe,
          MonadExceptOf.throw, h1, h2, h3]
  | none =>
    dsimp only
    cases hmm : playground.Spec.MultiModelsClaim with
    | none =>
      by_cases h3 : playground.labelValue ModelNameLabelKey = "" <;>
        simp [firstFailure, bind, Except.bind, pure, Except.pure, throw, throwThe,
          MonadExceptOf.throw, h3]
    | some mm =>
      dsimp only
      cases hfirst : mm.ModelNames.first with
      | error p => simp [firstFailure, bind, Except.bind, orPanic]
      | ok first =>
        dsimp only [orPanic]
        cases hg : k8sClient.GetModel first playground.Namespace with
        | none =>
          simp [firstFailure, bind, Except.bind, orPanic, throw, throwThe, MonadExceptOf.throw, hg]
        | some model =>
          by_cases h1 : mm.ModelNames = service.Spec.MultiModelsClaim.ModelNames <;>
          by_cases h2 : mm.InferenceFlavors = service.Spec.MultiModelsClaim.InferenceFlavors <;>
          by_cases h3 : playground.labelValue ModelNameLabelKey = model.Name <;>
          simp [firstFailure, bind, Except.bind, pure, Except.pure, throw, throwThe,
            MonadExceptOf.throw, orPanic, h1, h2, h3, hg]

theorem firstFailure_cons (s : Except Failure Unit) (rest : List (Except Failure Unit)) :
    firstFailure (s :: rest) = s >>= fun _ => firstFailure rest := by
  cases s <;> rfl

theorem firstFailure_append (l₁ l₂ : List (Except Failure Unit)) :
    firstFailure (l₁ ++ l₂) = firstFailure l₁ >>= fun _ => firstFailure l₂ := by
  induction l₁ with
  | nil => rfl
  | cons s l ih =>
    cases s with
    | ok u => simpa [firstFailure] using ih
    | error f => rfl

theorem firstFailure_eq_ok_iff (l : List (Except Failure Unit)) :
    firstFailure l = .ok () ↔ ∀ s ∈ l, s = .ok () := by
  induction l with
  | nil => simp [firstFailure]
  | cons s l ih =>
    cases s with
    | ok u => simp [firstFailure, ih]
    | error f => simp [firstFailure]

theorem ValidatePlayground_steps (SwitchBackend : String → Backend) (k8sClient : Client)
    (playground : Playground) (service : Service)
    (hget : k8sClient.GetService playground.Name playground.Namespace = some service) :
    ValidatePlayground SwitchBackend k8sClient playground =
      firstFailure (checkSteps SwitchBackend k8sClient playground service) := by
  have hsplit : checkSteps SwitchBackend k8sClient playground service =
      [lookupStep k8sClient playground, namesStep playground service,
        flavorsStep playground service, labelStep k8sClient playground] ++
      [replicasStep playground service, containerNameStep service,
        commandStep (effectiveBackend SwitchBackend playground) service,
        imageStep (effectiveBackend SwitchBackend playground) playground service,
        argsStep playground service, envStep playground service,
        limitsStep (effectiveBackend SwitchBackend playground) playground service,
        requestsStep (effectiveBackend SwitchBackend playground) playground service] := rfl
  rw [hsplit, firstFailure_append, ← validateModelClaim_eq]
  unfold ValidatePlayground
  simp only [hget, bind, Except.bind, pure, Except.pure]
  cases validateModelClaim k8sClient playground service with
  | error f => rfl
  | ok u =>
    dsimp only
    unfold replicasStep containerNameStep commandStep imageStep argsStep envStep limitsStep
      requestsStep imageCheck argsCheck envCheck limitsCheck requestsCheck onBackendConfig
      onRunner Service.runner expectedResources
    cases deref playground.Spec.Replicas with
    | error f => rfl
    | ok replicas =>
      dsimp only
      cases deref service.Spec.WorkloadTemplate.Replicas with
      | error f => rfl
      | ok serviceReplicas =>
        dsimp only
        by_cases hrep : replicas = serviceReplicas
        swap
        · simp [firstFailure, hrep, throw, throwThe, MonadExceptOf.throw]
        cases orPanic
          service.Spec.WorkloadTemplate.LeaderWorkerTemplate.WorkerTemplate.Spec.Containers.first with
        | error f => simp [firstFailure, hrep]
        | ok container =>
          have hbk : SwitchBackend
              (match playground.Spec.BackendConfig with
                | some backendConfig =>
                  match backendConfig.Name with
                  | some name => name
                  | none => DefaultBackend
                | none => DefaultBackend) = effectiveBackend SwitchBackend playground := rfl
          simp only [hbk]
          generalize effectiveBackend SwitchBackend playground = bkd
          by_cases hname : container.Name = MODEL_RUNNER_CONTAINER_NAME
          swap
          · simp [firstFailure, hrep, hname, throw, throwThe, MonadExceptOf.throw]
          by_cases hcmd : bkd.DefaultCommands = container.Command
          swap
          · simp [firstFailure, hrep, hname, hcmd, throw, throwThe, MonadExceptOf.throw]
          cases playground.Spec.BackendConfig with
          | none => simp [firstFailure, hrep, hname, hcmd]
          | some backendConfig =>
            obtain ⟨bname, bversion, bargs, benvs, bres⟩ := backendConfig
            by_cases himg : bkd.Image (bversion.getD bkd.DefaultVersion) = container.Image
            swap
            · cases bversion <;>
                simp_all [firstFailure, throw, throwThe, MonadExceptOf.throw]
            cases hargs : checkArgs (Slice.toList container.Args) (Slice.toList bargs) with
            | error f =>
              cases bversion <;>
                simp_all [firstFailure, throw, throwThe, MonadExceptOf.throw]
            | ok u =>
              by_cases henv : container.Env = benvs
              swap
              · cases bversion <;>
                  simp_all [firstFailure, throw, throwThe, MonadExceptOf.throw]
              cases bres with
              | none =>
                cases bversion <;>
                  cases hl : checkQuantities container.Resources.Limits bkd.DefaultResources.Limits <;>
                  cases hr : checkQuantities container.Resources.Requests
                    bkd.DefaultResources.Requests <;>
                  simp_all [firstFailure, throw, throwThe, MonadExceptOf.throw]
              | some resources =>
                cases bversion <;>
                  cases hl : checkQuantities container.Resources.Limits resources.Limits <;>
                  cases hr : checkQuantities container.Resources.Requests resources.Requests <;>
                  simp_all [firstFailure, throw, throwThe, MonadExceptOf.throw]

theorem ValidatePlayground_no_service (SwitchBackend : String → Backend) (k8sClient : Client)
    (playground : Playground)
    (hget : k8sClient.GetService playground.Name playground.Namespace = none) :
    ValidatePlayground SwitchBackend k8sClient playground =
      .error (Failure.returned CheckError.failedToGetInferenceService) := by
  unfold ValidatePlayground
  simp [hget, bind, Except.bind, throw, throwThe, MonadExceptOf.throw]

theorem accepted_steps {SwitchBackend : String → Backend} {k8sClient : Client}
    {playground : Playground} {service : Service}
    (hget : k8sClient.GetService playground.Name playground.Namespace = some service)
    (hacc : ValidatePlayground SwitchBackend k8sClient playground = .ok ()) :
    ∀ s ∈ checkSteps SwitchBackend k8sClient playground service, s = .ok () := by
  rw [ValidatePlayground_steps SwitchBackend k8sClient playground service hget] at hacc
  exact (firstFailure_eq_ok_iff _).mp hacc

theorem onRunner_ok_iff (service : Service) (check : Container → Except Failure Unit) :
    onRunner service check = .ok () ↔
      ∃ container, service.runner = .ok container ∧ check container = .ok () := by
  unfold onRunner
  cases service.runner with
  | error f => simp
  | ok container => simp

theorem onBackendConfig_some {playground : Playground} {backendConfig : BackendConfig}
    (hbc : playground.Spec.BackendConfig = some backendConfig) (service : Service)
    (check : BackendConfig → Container → Except Failure Unit) :
    onBackendConfig playground service check = onRunner service (check backendConfig) := by
  unfold onBackendConfig
  rw [hbc]

theorem effectiveBackend_some (SwitchBackend : String → Backend) {playground : Playground}
    {backendConfig : BackendConfig} (hbc : playground.Spec.BackendConfig = some backendConfig) :
    effectiveBackend SwitchBackend playground =
      SwitchBackend (backendConfig.Name.getD DefaultBackend) := by
  unfold effectiveBackend
  rw [hbc]
  obtain ⟨name, _, _, _, _⟩ := backendConfig
  cases name <;> rfl

/-- C13 as stated fails: the request `{modelClaim: "llama3-8b", replicas: 1}`
has no backend configuration, and the checker accepts for it a derived
workload whose image is not the image of the default backend at its default
version. -/
theorem image_unchecked_without_backend_config :
    (servedPlayground none).Spec.BackendConfig = none ∧
    ValidatePlayground sampleBackends
      (clusterWith (serviceWith { sampleContainer with Image := "other:latest" } 1))
      (servedPlayground none) = .ok () ∧
    "other:latest" ≠ (sampleBackends DefaultBackend).Image
      (sampleBackends DefaultBackend).DefaultVersion := by
  decide

theorem withRunnerImage_onRunner (service : Service) (image : String)
    (check : Container → Except Failure Unit)
    (hcheck : ∀ container, check { container with Image := image } = check container) :
    onRunner (service.withRunnerImage image) check = onRunner service check := by
  unfold onRunner Service.runner Service.withRunnerImage orPanic
  cases hcs : service.Spec.WorkloadTemplate.LeaderWorkerTemplate.WorkerTemplate.Spec.Containers
    with
  | none => rfl
  | some l =>
    cases l with
    | nil => rfl
    | cons container rest => exact hcheck container

theorem onBackendConfig_none {playground : Playground}
    (hbc : playground.Spec.BackendConfig = none) (service : Service)
    (check : BackendConfig → Container → Except Failure Unit) :
    onBackendConfig playground service check = .ok () := by
  unfold onBackendConfig
  rw [hbc]

/-- C13, amended: for a request with a backend configuration and a derived
workload the checker accepts, the image of the first container of the worker
template equals `Image(v)` of the effective backend (the explicit name, else
the default backend), where `v` is the explicit version if present and the
default version of that backend otherwise; for a request with no backend
configuration the image is not compared: one evaluation of the checker ends
the same way whatever image the first container of the workload has. -/
theorem accepted_image (SwitchBackend : String → Backend) (k8sClient : Client)
    (playground : Playground) (service : Service)
    (hget : k8sClient.GetService playground.Name playground.Namespace = some service) :
    (∀ backendConfig, playground.Spec.BackendConfig = some backendConfig →
      ValidatePlayground SwitchBackend k8sClient playground = .ok () →
      ∃ container,
        service.Spec.WorkloadTemplate.LeaderWorkerTemplate.WorkerTemplate.Spec.Containers.first
          = .ok container ∧
        container.Image =
          (SwitchBackend (backendConfig.Name.getD DefaultBackend)).Image
            (match backendConfig.Version with
             | some version => version
             | none =>
               (SwitchBackend (backendConfig.Name.getD DefaultBackend)).DefaultVersion)) ∧
    (playground.Spec.BackendConfig = none →
      ∀ image : String,
        ValidatePlayground SwitchBackend
            { k8sClient with GetService := fun _ _ => some (service.withRunnerImage image) }
            playground =
          ValidatePlayground SwitchBackend k8sClient playground) := by
  constructor
  · intro backendConfig hbc hacc
    have h := accepted_steps hget hacc
      (imageStep (effectiveBackend SwitchBackend playground) playground service)
      (by simp [checkSteps])
    rw [imageStep, onBackendConfig_some hbc, onRunner_ok_iff, effectiveBackend_some _ hbc] at h
    obtain ⟨container, hrun, hc⟩ := h
    refine ⟨container, ?_, ?_⟩
    · unfold Service.runner orPanic at hrun
      split at hrun
      · rename_i a ha; rw [ha]; cases hrun; rfl
      · cases hrun
    · unfold imageCheck at hc
      split at hc
      · cases hc
      · rename_i himg
        rw [← not_ne_iff.mp himg]
        cases backendConfig.Version <;> rfl
  · intro hbc image
    rw [ValidatePlayground_steps SwitchBackend
        { k8sClient with GetService := fun _ _ => some (service.withRunnerImage image) }
        playground (service.withRunnerImage image) rfl,
      ValidatePlayground_steps SwitchBackend k8sClient playground service hget]
    have hname : containerNameStep (service.withRunnerImage image)
        = containerNameStep service :=
      withRunnerImage_onRunner service image _ (fun _ => rfl)
    have hcmd : ∀ bkd, commandStep bkd (service.withRunnerImage image)
        = commandStep bkd service :=
      fun bkd => withRunnerImage_onRunner service image _ (fun _ => rfl)
    simp only [checkSteps, hname, hcmd, imageStep, argsStep, envStep, limitsStep, requestsStep,
      onBackendConfig_none hbc]
    rfl

/-- C13, amended, at the sample request with backend `vllm` at its default
version and with the explicit version `v2`, and at the sample request without
a backend configuration, for which the image `other:latest` changes nothing. -/
theorem accepted_image_witness :
    (∃ container, Slice.first (some [sampleContainer]) = .ok container ∧
      container.Image = "runner:v1") ∧
    (∃ container,
      Slice.first (some [{ sampleContainer with Image := "runner:v2" }]) = .ok container ∧
      container.Image = "runner:v2") ∧
    ValidatePlayground sampleBackends
        { clusterWith (serviceWith sampleContainer 1) with
          GetService := fun _ _ =>
            some ((serviceWith sampleContainer 1).withRunnerImage "other:latest") }
        (servedPlayground none) =
      ValidatePlayground sampleBackends (clusterWith (serviceWith sampleContainer 1))
        (servedPlayground none) :=
  ⟨(accepted_image sampleBackends (clusterWith (serviceWith sampleContainer 1))
      (servedPlayground (some (backendNamed (some "vllm")))) _ rfl).1 _ rfl (by decide),
   (accepted_image sampleBackends
      (clusterWith (serviceWith { sampleContainer with Image := "runner:v2" } 1))
      (servedPlayground (some { backendNamed (some "vllm") with Version := some "v2" }))
      _ rfl).1 _ rfl (by decide),
   (accepted_image sampleBackends (clusterWith (serviceWith sampleContainer 1))
      (servedPlayground none) _ rfl).2 rfl "other:latest"⟩

theorem runner_eq_first (service : Service) (container : Container) :
    service.runner = .ok container ↔
      service.Spec.WorkloadTemplate.LeaderWorkerTemplate.WorkerTemplate.Spec.Containers.first
        = .ok container := by
  unfold Service.runner orPanic
  split
  · rename_i a ha; rw [ha]; simp
  · rename_i p hp; rw [hp]; simp

/-- C14: for a request and a derived workload the checker accepts, both replica
counts are set and equal, the first container of the worker template is named
by the model-runner constant, and its command is `DefaultCommands()` of the
effective backend (the explicit `backendConfig.name`, else the default one). -/
theorem accepted_replicas_name_command (SwitchBackend : String → Backend) (k8sClient : Client)
    (playground : Playground) (service : Service)
    (hget : k8sClient.GetService playground.Name playground.Namespace = some service)
    (hacc : ValidatePlayground SwitchBackend k8sClient playground = .ok ()) :
    (∃ replicas, playground.Spec.Replicas = some replicas ∧
      service.Spec.WorkloadTemplate.Replicas = some replicas) ∧
    ∃ container,
      service.Spec.WorkloadTemplate.LeaderWorkerTemplate.WorkerTemplate.Spec.Containers.first
        = .ok container ∧
      container.Name = MODEL_RUNNER_CONTAINER_NAME ∧
      container.Command =
        (SwitchBackend
          (match playground.Spec.BackendConfig with
           | some backendConfig =>
             match backendConfig.Name with
             | some name => name
             | none => DefaultBackend
           | none => DefaultBackend)).DefaultCommands := by
  have hsteps := accepted_steps hget hacc
  have hrep := hsteps (replicasStep playground service) (by simp [checkSteps])
  have hname := hsteps (containerNameStep service) (by simp [checkSteps])
  have hcmd := hsteps (commandStep (effectiveBackend SwitchBackend playground) service)
    (by simp [checkSteps])
  constructor
  · unfold replicasStep deref at hrep
    cases h1 : playground.Spec.Replicas with
    | none => simp [h1] at hrep
    | some a =>
      cases h2 : service.Spec.WorkloadTemplate.Replicas with
      | none => simp [h1, h2] at hrep
      | some b =>
        simp only [h1, h2] at hrep
        split at hrep
        · cases hrep
        · rename_i hab
          exact ⟨a, rfl, by rw [not_ne_iff.mp hab]⟩
  · rw [containerNameStep, onRunner_ok_iff] at hname
    rw [commandStep, onRunner_ok_iff] at hcmd
    obtain ⟨container, hrun, hn⟩ := hname
    obtain ⟨container', hrun', hc⟩ := hcmd
    rw [hrun] at hrun'
    cases hrun'
    refine ⟨container, (runner_eq_first service container).mp hrun, ?_, ?_⟩
    · split at hn
      · cases hn
      · rename_i h; exact not_ne_iff.mp h
    · split at hc
      · cases hc
      · rename_i h; exact (not_ne_iff.mp h).symm

/-- C14, at the request `{modelClaim: "llama3-8b", replicas: 1}` on the default
backend and its derived workload. -/
theorem accepted_replicas_name_command_witness :
    ValidatePlayground sampleBackends (clusterWith (serviceWith sampleContainer 1))
      (servedPlayground none) = .ok () ∧
    (∃ replicas, (servedPlayground none).Spec.Replicas = some replicas ∧
      (serviceWith sampleContainer 1).Spec.WorkloadTemplate.Replicas = some replicas) ∧
    ∃ container, Slice.first (some [sampleContainer]) = .ok container ∧
      container.Name = MODEL_RUNNER_CONTAINER_NAME ∧
      container.Command = (sampleBackends DefaultBackend).DefaultCommands :=
  ⟨by decide,
   accepted_replicas_name_command sampleBackends (clusterWith (serviceWith sampleContainer 1))
     (servedPlayground none) _ rfl (by decide)⟩

/-- C15: for a request and a derived workload the checker accepts: if
`modelClaim` is set, the first model name of the derived workload is the
claimed model name and the derived flavors equal the flavors of the claim; if
`modelClaim` is nil and `multiModelsClaim` is set, the derived model names
equal the claimed ones as sequences and the derived flavors equal the flavors
of the claim. -/
theorem accepted_model_claim (SwitchBackend : String → Backend) (k8sClient : Client)
    (playground : Playground) (service : Service)
    (hget : k8sClient.GetService playground.Name playground.Namespace = some service)
    (hacc : ValidatePlayground SwitchBackend k8sClient playground = .ok ()) :
    (∀ modelClaim, playground.Spec.ModelClaim = some modelClaim →
      service.Spec.MultiModelsClaim.ModelNames.first = .ok modelClaim.ModelName ∧
      service.Spec.MultiModelsClaim.InferenceFlavors = modelClaim.InferenceFlavors) ∧
    (∀ multiModelsClaim, playground.Spec.ModelClaim = none →
      playground.Spec.MultiModelsClaim = some multiModelsClaim →
      service.Spec.MultiModelsClaim.ModelNames = multiModelsClaim.ModelNames ∧
      service.Spec.MultiModelsClaim.InferenceFlavors = multiModelsClaim.InferenceFlavors) := by
  have hsteps := accepted_steps hget hacc
  have hnames := hsteps (namesStep playground service) (by simp [checkSteps])
  have hflavors := hsteps (flavorsStep playground service) (by simp [checkSteps])
  unfold namesStep at hnames
  unfold flavorsStep claimedFlavors at hflavors
  constructor
  · intro mc hmc
    simp only [hmc] at hnames hflavors
    constructor
    · unfold orPanic at hnames
      cases hf : service.Spec.MultiModelsClaim.ModelNames.first with
      | error p => simp [hf] at hnames
      | ok first =>
        simp only [hf] at hnames
        split at hnames
        · cases hnames
        · rename_i h; rw [not_ne_iff.mp h]
    · split at hflavors
      · cases hflavors
      · rename_i h; exact (not_ne_iff.mp h).symm
  · intro mm hmc hmm
    simp only [hmc, hmm, Option.map_some'] at hnames hflavors
    constructor
    · split at hnames
      · cases hnames
      · rename_i h; exact (not_ne_iff.mp h).symm
    · split at hflavors
      · cases hflavors
      · rename_i h; exact (not_ne_iff.mp h).symm

/-- C15, at the sample request with a model claim and at the request on the
models `a` and `b`, each with its derived workload. -/
theorem accepted_model_claim_witness :
    (Slice.first (some ["llama3-8b"]) = Except.ok llamaClaim.ModelName ∧
      (serviceWith sampleContainer 1).Spec.MultiModelsClaim.InferenceFlavors
        = llamaClaim.InferenceFlavors) ∧
    ((serviceOn ["a", "b"] sampleContainer 1).Spec.MultiModelsClaim.ModelNames
        = (multiClaim ["a", "b"] InferenceMode.Standard).ModelNames ∧
      (serviceOn ["a", "b"] sampleContainer 1).Spec.MultiModelsClaim.InferenceFlavors
        = (multiClaim ["a", "b"] InferenceMode.Standard).InferenceFlavors) :=
  ⟨(accepted_model_claim sampleBackends (clusterWith (serviceWith sampleContainer 1))
      (servedPlayground none) _ rfl (by decide)).1 llamaClaim rfl,
   (accepted_model_claim sampleBackends (clusterWith (serviceOn ["a", "b"] sampleContainer 1))
      multiServedPlayground _ rfl (by decide)).2 _ rfl rfl⟩

theorem withBackendConfig_eq {playground : Playground} {backendConfig : BackendConfig}
    (hbc : playground.Spec.BackendConfig = some backendConfig) :
    playground.withBackendConfig backendConfig = playground := by
  obtain ⟨name, ns, labels, mc, mm, bc, rep⟩ := playground
  simp only at hbc
  subst hbc
  rfl

theorem firstFailure_append_eq_ok_iff (l₁ l₂ : List (Except Failure Unit)) :
    firstFailure (l₁ ++ l₂) = .ok () ↔ firstFailure l₁ = .ok () ∧ firstFailure l₂ = .ok () := by
  simp only [firstFailure_eq_ok_iff, List.mem_append]
  constructor
  · intro h; exact ⟨fun s hs => h s (Or.inl hs), fun s hs => h s (Or.inr hs)⟩
  · rintro ⟨h1, h2⟩ s (hs | hs)
    · exact h1 s hs
    · exact h2 s hs

theorem ValidatePlayground_withBackendConfig (SwitchBackend : String → Backend)
    (k8sClient : Client) (playground : Playground) (backendConfig : BackendConfig)
    (service : Service) (container : Container)
    (hget : k8sClient.GetService playground.Name playground.Namespace = some service)
    (hrun : service.runner = .ok container) :
    ValidatePlayground SwitchBackend k8sClient (playground.withBackendConfig backendConfig) =
      firstFailure
        (commonSteps (SwitchBackend (backendConfig.Name.getD DefaultBackend)) k8sClient
            playground service ++
          blockChecks (SwitchBackend (backendConfig.Name.getD DefaultBackend)) backendConfig
            container) := by
  rw [ValidatePlayground_steps SwitchBackend k8sClient
    (playground.withBackendConfig backendConfig) service hget]
  have hbk : effectiveBackend SwitchBackend (playground.withBackendConfig backendConfig) =
      SwitchBackend (backendConfig.Name.getD DefaultBackend) :=
    effectiveBackend_some SwitchBackend rfl
  have hblock : ∀ check : BackendConfig → Container → Except Failure Unit,
      onBackendConfig (playground.withBackendConfig backendConfig) service check =
        check backendConfig container := by
    intro check
    rw [@onBackendConfig_some (playground.withBackendConfig backendConfig) backendConfig rfl]
    unfold onRunner
    rw [hrun]
  simp only [checkSteps, hbk, imageStep, argsStep, envStep, limitsStep, requestsStep, hblock,
    commonSteps, blockChecks, List.cons_append, List.nil_append]
  rfl

theorem accepted_withBackendConfig {SwitchBackend : String → Backend} {k8sClient : Client}
    {playground : Playground} {backendConfig : BackendConfig} {service : Service}
    (hget : k8sClient.GetService playground.Name playground.Namespace = some service)
    (hacc : ValidatePlayground SwitchBackend k8sClient
      (playground.withBackendConfig backendConfig) = .ok ()) :
    ∃ container, service.runner = .ok container ∧
      firstFailure (commonSteps (SwitchBackend (backendConfig.Name.getD DefaultBackend))
        k8sClient playground service) = .ok () ∧
      firstFailure (blockChecks (SwitchBackend (backendConfig.Name.getD DefaultBackend))
        backendConfig container) = .ok () := by
  have hname := @accepted_steps SwitchBackend k8sClient
    (playground.withBackendConfig backendConfig) service hget hacc (containerNameStep service)
    (by simp [checkSteps])
  rw [containerNameStep, onRunner_ok_iff] at hname
  obtain ⟨container, hrun, -⟩ := hname
  rw [ValidatePlayground_withBackendConfig SwitchBackend k8sClient playground backendConfig
    service container hget hrun, firstFailure_append_eq_ok_iff] at hacc
  exact ⟨container, hrun, hacc⟩

theorem checkArgs_ok_iff (derived args : List String) :
    checkArgs derived args = .ok () ↔ ∀ arg ∈ args, arg ∈ derived := by
  induction args with
  | nil => simp [checkArgs]
  | cons a rest ih =>
    by_cases ha : a ∈ derived <;> simp [checkArgs, ha, ih]

theorem checkArgs_error (derived args : List String) (f : Failure)
    (h : checkArgs derived args = .error f) :
    ∃ arg ∈ args, arg ∉ derived ∧ f = Failure.returned (CheckError.didntContainArg arg) := by
  induction args with
  | nil => simp [checkArgs] at h
  | cons a rest ih =>
    by_cases ha : a ∈ derived
    · simp only [checkArgs, ha, not_true_eq_false, if_false] at h
      obtain ⟨arg, hmem, hrest⟩ := ih h
      exact ⟨arg, List.mem_cons_of_mem _ hmem, hrest⟩
    · simp only [checkArgs, ha, not_false_eq_true, if_true] at h
      exact ⟨a, List.mem_cons_self _ _, ha, (Except.error.inj h).symm⟩

theorem checkQuantities_ok_iff (derived expected : ResourceList) :
    checkQuantities derived expected = .ok () ↔
      ∀ entry ∈ expected, (derived.index entry.1).value = entry.2.value := by
  induction expected with
  | nil => simp [checkQuantities]
  | cons e rest ih =>
    obtain ⟨k, v⟩ := e
    by_cases hk : (derived.index k).value = v.value <;>
      simp [checkQuantities, Quantity.Equal, hk, ih]

theorem firstFailure_blockChecks_ok_iff (bkd : Backend) (backendConfig : BackendConfig)
    (container : Container) :
    firstFailure (blockChecks bkd backendConfig container) = .ok () ↔
      imageCheck bkd backendConfig container = .ok () ∧
      argsCheck backendConfig container = .ok () ∧
      envCheck backendConfig container = .ok () ∧
      limitsCheck bkd backendConfig container = .ok () ∧
      requestsCheck bkd backendConfig container = .ok () := by
  simp [firstFailure_eq_ok_iff, blockChecks]

/-- C16: the argument check is a subset rule.  For a request with a backend
configuration and a derived workload on which all other steps hold (the
checker accepts the workload for the same request without arguments), the
checker accepts if and only if every string of `backendConfig.args` occurs in
the arguments of the first container, in any order and among any others; and
when it rejects, it returns the missing-argument error for an argument of the
request that the container lacks. -/
theorem args_subset_rule (SwitchBackend : String → Backend) (k8sClient : Client)
    (playground : Playground) (service : Service) (backendConfig : BackendConfig)
    (hget : k8sClient.GetService playground.Name playground.Namespace = some service)
    (hbc : playground.Spec.BackendConfig = some backendConfig)
    (hother : ValidatePlayground SwitchBackend k8sClient
      (playground.withBackendConfig { backendConfig with Args := none }) = .ok ()) :
    ∃ container,
      service.Spec.WorkloadTemplate.LeaderWorkerTemplate.WorkerTemplate.Spec.Containers.first
        = .ok container ∧
      (ValidatePlayground SwitchBackend k8sClient playground = .ok () ↔
        ∀ arg ∈ backendConfig.Args.toList, arg ∈ container.Args.toList) ∧
      (ValidatePlayground SwitchBackend k8sClient playground ≠ .ok () →
        ∃ arg ∈ backendConfig.Args.toList, arg ∉ container.Args.toList ∧
          ValidatePlayground SwitchBackend k8sClient playground
            = .error (Failure.returned (CheckError.didntContainArg arg))) := by
  obtain ⟨container, hrun, hcommon, hblock⟩ := accepted_withBackendConfig hget hother
  rw [firstFailure_blockChecks_ok_iff] at hblock
  obtain ⟨himg, -, henv, hlim, hreq⟩ := hblock
  have hres : ValidatePlayground SwitchBackend k8sClient playground =
      checkArgs container.Args.toList backendConfig.Args.toList := by
    have h := ValidatePlayground_withBackendConfig SwitchBackend k8sClient playground
      backendConfig service container hget hrun
    rw [withBackendConfig_eq hbc, firstFailure_append] at h
    rw [h]
    change imageCheck _ backendConfig container = _ at himg
    change envCheck backendConfig container = _ at henv
    change limitsCheck _ backendConfig container = _ at hlim
    change requestsCheck _ backendConfig container = _ at hreq
    have hcommon' : firstFailure (commonSteps (SwitchBackend
        (backendConfig.Name.getD DefaultBackend)) k8sClient playground service) = .ok () :=
      hcommon
    rw [hcommon']
    simp only [blockChecks, himg, henv, hlim, hreq, argsCheck, bind, Except.bind, firstFailure]
    cases checkArgs container.Args.toList backendConfig.Args.toList <;> rfl
  refine ⟨container, (runner_eq_first service container).mp hrun, ?_, ?_⟩
  · rw [hres, checkArgs_ok_iff]
  · intro hne
    rw [hres] at hne ⊢
    cases hc : checkArgs container.Args.toList backendConfig.Args.toList with
    | ok u => exact absurd hc hne
    | error f =>
      obtain ⟨arg, hmem, hnot, rfl⟩ := checkArgs_error _ _ f hc
      exact ⟨arg, hmem, hnot, rfl⟩

/-- C16, at the request of the claim: with `args = ["--foo"]`, derived
arguments `["--bar", "--foo"]` are accepted and derived arguments `["--bar"]`
are rejected with the missing-argument error for `--foo`. -/
theorem args_subset_rule_witness :
    (∃ container,
      Slice.first (some [{ sampleContainer with Args := some ["--bar", "--foo"] }])
        = .ok container ∧
      (ValidatePlayground sampleBackends
          (clusterWith (serviceWith { sampleContainer with Args := some ["--bar", "--foo"] } 1))
          (servedPlayground (some (backendWithArgs ["--foo"]))) = .ok () ↔
        ∀ arg ∈ (backendWithArgs ["--foo"]).Args.toList, arg ∈ container.Args.toList) ∧
      (ValidatePlayground sampleBackends
          (clusterWith (serviceWith { sampleContainer with Args := some ["--bar", "--foo"] } 1))
          (servedPlayground (some (backendWithArgs ["--foo"]))) ≠ .ok () →
        ∃ arg ∈ (backendWithArgs ["--foo"]).Args.toList, arg ∉ container.Args.toList ∧
          ValidatePlayground sampleBackends
            (clusterWith (serviceWith { sampleContainer with Args := some ["--bar", "--foo"] } 1))
            (servedPlayground (some (backendWithArgs ["--foo"])))
            = .error (Failure.returned (CheckError.didntContainArg arg)))) ∧
    ValidatePlayground sampleBackends
      (clusterWith (serviceWith { sampleContainer with Args := some ["--bar", "--foo"] } 1))
      (servedPlayground (some (backendWithArgs ["--foo"]))) = .ok () ∧
    ValidatePlayground sampleBackends
      (clusterWith (serviceWith { sampleContainer with Args := some ["--bar"] } 1))
      (servedPlayground (some (backendWithArgs ["--foo"])))
      = .error (Failure.returned (CheckError.didntContainArg "--foo")) :=
  ⟨args_subset_rule sampleBackends
      (clusterWith (serviceWith { sampleContainer with Args := some ["--bar", "--foo"] } 1))
      (servedPlayground (some (backendWithArgs ["--foo"]))) _ _ rfl rfl (by decide),
    by decide, by decide⟩

theorem runner_unique {service : Service} {c₁ c₂ : Container}
    (h₁ : service.runner = .ok c₁) (h₂ : service.runner = .ok c₂) : c₁ = c₂ := by
  rw [h₁] at h₂
  exact Except.ok.inj h₂

theorem ValidatePlayground_block (SwitchBackend : String → Backend) (k8sClient : Client)
    (playground : Playground) (service : Service) (backendConfig : BackendConfig)
    (container : Container)
    (hget : k8sClient.GetService playground.Name playground.Namespace = some service)
    (hbc : playground.Spec.BackendConfig = some backendConfig)
    (hrun : service.runner = .ok container)
    (hcommon : firstFailure (commonSteps (SwitchBackend
      (backendConfig.Name.getD DefaultBackend)) k8sClient playground service) = .ok ()) :
    ValidatePlayground SwitchBackend k8sClient playground =
      firstFailure (blockChecks (SwitchBackend (backendConfig.Name.getD DefaultBackend))
        backendConfig container) := by
  have h := ValidatePlayground_withBackendConfig SwitchBackend k8sClient playground
    backendConfig service container hget hrun
  rw [withBackendConfig_eq hbc, firstFailure_append, hcommon] at h
  exact h

/-- C17 as stated fails: for a request whose backend configuration has no
environment, the checker accepts the derived workload with an empty container
environment and rejects, with `unexpected envs`, the workload that differs
from it by a non-empty container environment only. -/
theorem empty_envs_are_compared :
    (backendNamed (some "vllm")).Envs.len = 0 ∧
    ValidatePlayground sampleBackends (clusterWith (serviceWith sampleContainer 1))
      (servedPlayground (some (backendNamed (some "vllm")))) = .ok () ∧
    ValidatePlayground sampleBackends
      (clusterWith (serviceWith { sampleContainer with Env := some [⟨"HOME", "/root"⟩] } 1))
      (servedPlayground (some (backendNamed (some "vllm"))))
      = .error (Failure.returned CheckError.unexpectedEnvs) := by
  decide

/-- C17, amended: the environment is compared whenever the request has a
backend configuration, whether its `envs` is empty or not: an accepted derived
workload has a container environment equal to `envs`, and a derived workload
on which all other steps hold (the checker accepts it for the same request
with `envs` set to the container environment) and whose container environment
differs from `envs` is rejected with `unexpected envs`. -/
theorem env_always_compared (SwitchBackend : String → Backend) (k8sClient : Client)
    (playground : Playground) (service : Service) (backendConfig : BackendConfig)
    (container : Container)
    (hget : k8sClient.GetService playground.Name playground.Namespace = some service)
    (hbc : playground.Spec.BackendConfig = some backendConfig)
    (hrun : service.Spec.WorkloadTemplate.LeaderWorkerTemplate.WorkerTemplate.Spec.Containers.first
      = .ok container) :
    (ValidatePlayground SwitchBackend k8sClient playground = .ok () →
      container.Env = backendConfig.Envs) ∧
    (ValidatePlayground SwitchBackend k8sClient
        (playground.withBackendConfig { backendConfig with Envs := container.Env }) = .ok () →
      container.Env ≠ backendConfig.Envs →
      ValidatePlayground SwitchBackend k8sClient playground
        = .error (Failure.returned CheckError.unexpectedEnvs)) := by
  have hrun' : service.runner = .ok container := (runner_eq_first service container).mpr hrun
  constructor
  · intro hacc
    have h := accepted_steps hget hacc (envStep playground service) (by simp [checkSteps])
    rw [envStep, onBackendConfig_some hbc, onRunner_ok_iff] at h
    obtain ⟨c, hc, henv⟩ := h
    cases runner_unique hrun' hc
    unfold envCheck at henv
    split at henv
    · cases henv
    · rename_i h; exact not_ne_iff.mp h
  · intro hother hne
    obtain ⟨c, hc, hcommon, hblock⟩ := accepted_withBackendConfig hget hother
    cases runner_unique hrun' hc
    rw [firstFailure_blockChecks_ok_iff] at hblock
    obtain ⟨himg, hargs, -, hlim, hreq⟩ := hblock
    rw [ValidatePlayground_block SwitchBackend k8sClient playground service backendConfig
      container hget hbc hrun' hcommon]
    change imageCheck _ backendConfig container = _ at himg
    change argsCheck backendConfig container = _ at hargs
    simp [blockChecks, himg, hargs, envCheck, hne, firstFailure]

/-- C17, amended, at the sample request with the environment `HOME=/root`:
the workload with that container environment is accepted, and the workload
with an empty one, on which all other steps hold, is rejected. -/
theorem env_always_compared_witness :
    ((some [⟨"HOME", "/root"⟩] : Slice EnvVar) =
      ({ backendNamed (some "vllm") with Envs := some [⟨"HOME", "/root"⟩] } : BackendConfig).Envs) ∧
    ValidatePlayground sampleBackends (clusterWith (serviceWith sampleContainer 1))
      (servedPlayground (some { backendNamed (some "vllm") with Envs := some [⟨"HOME", "/root"⟩] }))
      = .error (Failure.returned CheckError.unexpectedEnvs) :=
  ⟨(env_always_compared sampleBackends
      (clusterWith (serviceWith { sampleContainer with Env := some [⟨"HOME", "/root"⟩] } 1))
      (servedPlayground (some { backendNamed (some "vllm") with Envs := some [⟨"HOME", "/root"⟩] }))
      _ _ _ rfl rfl rfl).1 (by decide),
   (env_always_compared sampleBackends (clusterWith (serviceWith sampleContainer 1))
      (servedPlayground (some { backendNamed (some "vllm") with Envs := some [⟨"HOME", "/root"⟩] }))
      _ _ _ rfl rfl rfl).2 (by decide) (by decide)⟩

theorem resources_verdict (SwitchBackend : String → Backend) (k8sClient : Client)
    (playground : Playground) (service : Service) (backendConfig : BackendConfig)
    (container : Container)
    (hget : k8sClient.GetService playground.Name playground.Namespace = some service)
    (hbc : playground.Spec.BackendConfig = some backendConfig)
    (hrun : service.runner = .ok container)
    (hother : ValidatePlayground SwitchBackend k8sClient
      (playground.withBackendConfig
        { backendConfig with Resources := some { Limits := [], Requests := [] } }) = .ok ()) :
    ValidatePlayground SwitchBackend k8sClient playground = .ok () ↔
      (∀ entry ∈ (expectedResources (SwitchBackend (backendConfig.Name.getD DefaultBackend))
          backendConfig).Limits,
        (container.Resources.Limits.index entry.1).value = entry.2.value) ∧
      (∀ entry ∈ (expectedResources (SwitchBackend (backendConfig.Name.getD DefaultBackend))
          backendConfig).Requests,
        (container.Resources.Requests.index entry.1).value = entry.2.value) := by
  obtain ⟨c, hc, hcommon, hblock⟩ := accepted_withBackendConfig hget hother
  cases runner_unique hrun hc
  rw [firstFailure_blockChecks_ok_iff] at hblock
  obtain ⟨himg, hargs, henv, -, -⟩ := hblock
  rw [ValidatePlayground_block SwitchBackend k8sClient playground service backendConfig
    container hget hbc hrun hcommon, firstFailure_blockChecks_ok_iff]
  change imageCheck _ backendConfig container = _ at himg
  change argsCheck backendConfig container = _ at hargs
  change envCheck backendConfig container = _ at henv
  simp only [himg, hargs, henv, true_and, limitsCheck, requestsCheck, checkQuantities_ok_iff]

theorem withRunnerResources_runner {service : Service} {container : Container}
    (hrun : service.runner = .ok container) (resources : ResourceRequirements) :
    (service.withRunnerResources resources).runner
      = .ok { container with Resources := resources } := by
  unfold Service.runner orPanic at hrun
  unfold Service.withRunnerResources Service.runner orPanic
  cases hcs : service.Spec.WorkloadTemplate.LeaderWorkerTemplate.WorkerTemplate.Spec.Containers
    with
  | none => simp [hcs, Slice.first] at hrun
  | some l =>
    cases l with
    | nil => simp [hcs, Slice.first] at hrun
    | cons c rest =>
      simp only [hcs, Slice.first] at hrun
      cases hrun
      rfl

theorem withRunnerResources_other (SwitchBackend : String → Backend) (k8sClient : Client)
    (playground : Playground) (service : Service) (backendConfig : BackendConfig)
    (container : Container) (resources : ResourceRequirements)
    (hget : k8sClient.GetService playground.Name playground.Namespace = some service)
    (hrun : service.runner = .ok container) :
    ValidatePlayground SwitchBackend
        { k8sClient with GetService := fun _ _ => some (service.withRunnerResources resources) }
        (playground.withBackendConfig
          { backendConfig with Resources := some { Limits := [], Requests := [] } }) =
      ValidatePlayground SwitchBackend k8sClient
        (playground.withBackendConfig
          { backendConfig with Resources := some { Limits := [], Requests := [] } }) := by
  rw [ValidatePlayground_withBackendConfig SwitchBackend k8sClient playground _ service
      container hget hrun,
    ValidatePlayground_withBackendConfig SwitchBackend
      { k8sClient with GetService := fun _ _ => some (service.withRunnerResources resources) }
      playground _ (service.withRunnerResources resources)
      { container with Resources := resources } rfl (withRunnerResources_runner hrun resources)]
  have hname : containerNameStep (service.withRunnerResources resources)
      = containerNameStep service := by
    unfold containerNameStep onRunner
    rw [hrun, withRunnerResources_runner hrun resources]
  have hcmd : ∀ bkd, commandStep bkd (service.withRunnerResources resources)
      = commandStep bkd service := by
    intro bkd
    unfold commandStep onRunner
    rw [hrun, withRunnerResources_runner hrun resources]
  simp only [commonSteps, hname, hcmd]
  rfl

/-- C18: the resource check.  For a request with a backend configuration and a
derived workload on which all earlier steps hold (the checker accepts the
workload for the same request with empty explicit resources): with explicit
resources the checker accepts if and only if, at every key of the explicit
limits and of the explicit requests, the quantity of the first container is
numerically equal to the explicit one, and replacing the resources of the
container by any that agree at these keys leaves the verdict unchanged; with
no explicit resources the checker accepts if and only if, at every key of the
default limits and requests of the effective backend, the quantity of the
first container is numerically equal to the default. -/
theorem resources_rule (SwitchBackend : String → Backend) (k8sClient : Client)
    (playground : Playground) (service : Service) (backendConfig : BackendConfig)
    (container : Container)
    (hget : k8sClient.GetService playground.Name playground.Namespace = some service)
    (hbc : playground.Spec.BackendConfig = some backendConfig)
    (hrun : service.Spec.WorkloadTemplate.LeaderWorkerTemplate.WorkerTemplate.Spec.Containers.first
      = .ok container)
    (hother : ValidatePlayground SwitchBackend k8sClient
      (playground.withBackendConfig
        { backendConfig with Resources := some { Limits := [], Requests := [] } }) = .ok ()) :
    (∀ resources, backendConfig.Resources = some resources →
      (ValidatePlayground SwitchBackend k8sClient playground = .ok () ↔
        (∀ entry ∈ resources.Limits,
          (container.Resources.Limits.index entry.1).value = entry.2.value) ∧
        (∀ entry ∈ resources.Requests,
          (container.Resources.Requests.index entry.1).value = entry.2.value)) ∧
      ∀ derived : ResourceRequirements,
        (∀ entry ∈ resources.Limits,
          derived.Limits.index entry.1 = container.Resources.Limits.index entry.1) →
        (∀ entry ∈ resources.Requests,
          derived.Requests.index entry.1 = container.Resources.Requests.index entry.1) →
        (ValidatePlayground SwitchBackend
            { k8sClient with GetService := fun _ _ => some (service.withRunnerResources derived) }
            playground = .ok () ↔
          ValidatePlayground SwitchBackend k8sClient playground = .ok ())) ∧
    (backendConfig.Resources = none →
      (ValidatePlayground SwitchBackend k8sClient playground = .ok () ↔
        (∀ entry ∈ (SwitchBackend (backendConfig.Name.getD DefaultBackend)).DefaultResources.Limits,
          (container.Resources.Limits.index entry.1).value = entry.2.value) ∧
        (∀ entry ∈
            (SwitchBackend (backendConfig.Name.getD DefaultBackend)).DefaultResources.Requests,
          (container.Resources.Requests.index entry.1).value = entry.2.value))) := by
  have hrun' : service.runner = .ok container := (runner_eq_first service container).mpr hrun
  have hv := resources_verdict SwitchBackend k8sClient playground service backendConfig
    container hget hbc hrun' hother
  constructor
  · intro resources hres
    have hexp : expectedResources (SwitchBackend (backendConfig.Name.getD DefaultBackend))
        backendConfig = resources := by
      unfold expectedResources; rw [hres]
    rw [hexp] at hv
    refine ⟨hv, fun derived hlim hreq => ?_⟩
    have hother' := withRunnerResources_other SwitchBackend k8sClient playground service
      backendConfig container derived hget hrun'
    rw [hother] at hother'
    have hv' := resources_verdict SwitchBackend
      { k8sClient with GetService := fun _ _ => some (service.withRunnerResources derived) }
      playground (service.withRunnerResources derived) backendConfig
      { container with Resources := derived } rfl hbc
      (withRunnerResources_runner hrun' derived) hother'
    rw [hexp] at hv'
    rw [hv, hv']
    constructor
    · rintro ⟨h1, h2⟩
      exact ⟨fun e he => by rw [← hlim e he]; exact h1 e he,
        fun e he => by rw [← hreq e he]; exact h2 e he⟩
    · rintro ⟨h1, h2⟩
      exact ⟨fun e he => by show (derived.Limits.index e.1).value = _; rw [hlim e he]; exact h1 e he,
        fun e he => by show (derived.Requests.index e.1).value = _; rw [hreq e he]; exact h2 e he⟩
  · intro hres
    have hexp : expectedResources (SwitchBackend (backendConfig.Name.getD DefaultBackend))
        backendConfig = (SwitchBackend (backendConfig.Name.getD DefaultBackend)).DefaultResources := by
      unfold expectedResources; rw [hres]
    rw [hexp] at hv
    exact hv

/-- C18, at the sample request: with the explicit limit `cpu: 4` the workload
whose container has `cpu: 4000m` (the number 4) is accepted; with no explicit
resources the workload is accepted against the defaults of the backend. -/
theorem resources_rule_witness :
    ValidatePlayground sampleBackends (clusterWith (serviceWith sampleContainer 1))
      (servedPlayground (some backendWithLimit)) = .ok () ∧
    ValidatePlayground sampleBackends (clusterWith (serviceWith sampleContainer 1))
      (servedPlayground (some (backendNamed (some "vllm")))) = .ok () := by
  have h1 := resources_rule sampleBackends (clusterWith (serviceWith sampleContainer 1))
    (servedPlayground (some backendWithLimit)) _ _ sampleContainer rfl rfl rfl (by decide)
  have h2 := resources_rule sampleBackends (clusterWith (serviceWith sampleContainer 1))
    (servedPlayground (some (backendNamed (some "vllm")))) _ _ sampleContainer rfl rfl rfl
    (by decide)
  exact ⟨(h1.1 _ rfl).1.mpr (by decide), (h2.2 rfl).mpr (by decide)⟩

theorem firstFailure_of_index (l : List (Except Failure Unit)) :
    ∀ (i : Nat) (f : Failure), l[i]? = some (.error f) →
      (∀ j < i, l[j]? = some (.ok ())) → firstFailure l = .error f := by
  induction l with
  | nil => intro i f h; simp at h
  | cons s rest ih =>
    intro i f h hbefore
    cases i with
    | zero =>
      simp only [List.getElem?_cons_zero, Option.some.injEq] at h
      subst h; rfl
    | succ i =>
      have h0 := hbefore 0 (Nat.succ_pos i)
      simp only [List.getElem?_cons_zero, Option.some.injEq] at h0
      subst h0
      simp only [List.getElem?_cons_succ] at h
      exact ih i f h (fun j hj => by
        have := hbefore (j + 1) (Nat.succ_lt_succ hj)
        simpa using this)

theorem index_of_firstFailure (l : List (Except Failure Unit)) (f : Failure)
    (h : firstFailure l = .error f) :
    ∃ i : Nat, l[i]? = some (Except.error f) ∧ ∀ j < i, l[j]? = some (Except.ok ()) := by
  induction l with
  | nil => simp [firstFailure] at h
  | cons s rest ih =>
    cases s with
    | error g =>
      simp only [firstFailure, Except.error.injEq] at h
      subst h
      exact ⟨0, by simp, fun j hj => absurd hj (Nat.not_lt_zero j)⟩
    | ok u =>
      simp only [firstFailure] at h
      obtain ⟨i, hi, hbefore⟩ := ih h
      refine ⟨i + 1, by simpa using hi, fun j hj => ?_⟩
      cases j with
      | zero => simp
      | succ j => simpa using hbefore j (Nat.lt_of_succ_lt_succ hj)

/-- C20: the checker reports the first failing step only.  For a request and
its derived workload, with the twelve steps taken alone in the order model
lookup, model names, flavors, model-name label, replicas, container name,
command, image, arguments, environment, resource limits, resource requests:
if a step fails and every step before it passes, one evaluation ends with the
failure of that step, whatever the later steps do; the evaluation succeeds if
every step passes; and a failure it ends with is the failure of a step before
which every step passes. -/
theorem first_failing_step_reported (SwitchBackend : String → Backend) (k8sClient : Client)
    (playground : Playground) (service : Service)
    (hget : k8sClient.GetService playground.Name playground.Namespace = some service) :
    (∀ (i : Nat) (failure : Failure),
      (checkSteps SwitchBackend k8sClient playground service)[i]? = some (.error failure) →
      (∀ j < i, (checkSteps SwitchBackend k8sClient playground service)[j]? = some (.ok ())) →
      ValidatePlayground SwitchBackend k8sClient playground = .error failure) ∧
    ((∀ s ∈ checkSteps SwitchBackend k8sClient playground service, s = .ok ()) →
      ValidatePlayground SwitchBackend k8sClient playground = .ok ()) ∧
    (∀ failure, ValidatePlayground SwitchBackend k8sClient playground = .error failure →
      ∃ i : Nat,
        (checkSteps SwitchBackend k8sClient playground service)[i]?
          = some (Except.error failure) ∧
        ∀ j < i, (checkSteps SwitchBackend k8sClient playground service)[j]?
          = some (Except.ok ())) := by
  rw [ValidatePlayground_steps SwitchBackend k8sClient playground service hget]
  exact ⟨firstFailure_of_index _, (firstFailure_eq_ok_iff _).mpr, index_of_firstFailure _⟩

/-- C20, at the workload of the claim: with a wrong replica count and a wrong
container name, the fifth and the sixth step fail, and the evaluation ends
with the replicas error. -/
theorem first_failing_step_reported_witness :
    (checkSteps sampleBackends
        (clusterWith (serviceWith { sampleContainer with Name := "sidecar" } 2))
        (servedPlayground none) (serviceWith { sampleContainer with Name := "sidecar" } 2))[5]?
      = some (.error (Failure.returned
          (CheckError.containerNameNotRight MODEL_RUNNER_CONTAINER_NAME "sidecar"))) ∧
    ValidatePlayground sampleBackends
        (clusterWith (serviceWith { sampleContainer with Name := "sidecar" } 2))
        (servedPlayground none)
      = .error (Failure.returned (CheckError.expectedReplicas 1 2)) :=
  ⟨by decide,
   (first_failing_step_reported sampleBackends
      (clusterWith (serviceWith { sampleContainer with Name := "sidecar" } 2))
      (servedPlayground none) (serviceWith { sampleContainer with Name := "sidecar" } 2) rfl).1
      4 _ (by decide) (by decide)⟩

theorem orPanic_ne_returned {α : Type} (x : Except Panic α) (e : CheckError) :
    orPanic x ≠ .error (Failure.returned e) := by
  cases x <;> simp [orPanic]

theorem lookupStep_ne_label (k8sClient : Client) (playground : Playground) (want got : String) :
    lookupStep k8sClient playground
      ≠ .error (Failure.returned (CheckError.unexpectedLabelValue want got)) := by
  unfold lookupStep
  cases playground.Spec.ModelClaim with
  | some mc =>
    dsimp only
    cases k8sClient.GetModel mc.ModelName playground.Namespace <;> simp
  | none =>
    cases playground.Spec.MultiModelsClaim with
    | none => simp
    | some mm =>
      dsimp only
      cases h : orPanic mm.ModelNames.first with
      | error f =>
        intro hf
        simp only [Except.error.injEq] at hf
        exact orPanic_ne_returned _ _ (hf ▸ h)
      | ok first =>
        dsimp only
        cases k8sClient.GetModel first playground.Namespace <;> simp

theorem namesStep_ne_label (playground : Playground) (service : Service) (want got : String) :
    namesStep playground service
      ≠ .error (Failure.returned (CheckError.unexpectedLabelValue want got)) := by
  unfold namesStep
  cases playground.Spec.ModelClaim with
  | some mc =>
    dsimp only
    cases h : orPanic service.Spec.MultiModelsClaim.ModelNames.first with
    | error f =>
      intro hf
      simp only [Except.error.injEq] at hf
      exact orPanic_ne_returned _ _ (hf ▸ h)
    | ok first =>
      dsimp only
      split <;> simp
  | none =>
    cases playground.Spec.MultiModelsClaim with
    | none => simp
    | some mm =>
      dsimp only
      split <;> simp

theorem flavorsStep_ne_label (playground : Playground) (service : Service) (want got : String) :
    flavorsStep playground service
      ≠ .error (Failure.returned (CheckError.unexpectedLabelValue want got)) := by
  unfold flavorsStep
  cases claimedFlavors playground with
  | none => simp
  | some flavors =>
    dsimp only
    split <;> simp

theorem labelValue_update (labels : StringMap) (r : Playground) (value : String) :
    Playground.labelValue
      { r with Labels := some (Function.update labels ModelNameLabelKey (some value)) }
      ModelNameLabelKey = value := by
  simp [Playground.labelValue, Playground.label]

/-- C19: `Default` establishes the label step of the checker.  For a request
with `modelClaim` set, or with `multiModelsClaim` set and at least one model
name, and a registry in which a lookup that succeeds returns the record of the
name looked up, `Default` returns a request on which the label step passes
once the lookup of the primary model has succeeded, so that
`validateModelClaim` never returns the label error on it. -/
theorem Default_establishes_label_step (k8sClient : Client) (r : Playground)
    (hclaim : r.Spec.ModelClaim ≠ none ∨
      ∃ multiModelsClaim, r.Spec.MultiModelsClaim = some multiModelsClaim ∧
        1 ≤ multiModelsClaim.ModelNames.len)
    (hreg : ∀ name ns model, k8sClient.GetModel name ns = some model → model.Name = name) :
    ∃ r', Default r = .ok r' ∧
      (lookupStep k8sClient r' = .ok () → labelStep k8sClient r' = .ok ()) ∧
      ∀ service want got, validateModelClaim k8sClient r' service
        ≠ .error (Failure.returned (CheckError.unexpectedLabelValue want got)) := by
  have hlabel : ∀ r', Default r = .ok r' →
      (lookupStep k8sClient r' = .ok () → labelStep k8sClient r' = .ok ()) := by
    intro r' hd
    obtain ⟨modelName, hname, rfl⟩ := (Default_ok_iff r r').mp hd
    intro hlookup
    unfold labelStep
    rw [labelValue_update]
    unfold lookupStep at hlookup
    unfold resolvedModel
    dsimp only at hlookup ⊢
    cases hmc : r.Spec.ModelClaim with
    | some mc =>
      simp only [hmc] at hname hlookup ⊢
      cases hname
      cases hg : k8sClient.GetModel mc.ModelName r.Namespace with
      | none => simp [hg] at hlookup
      | some model => simp [hreg _ _ _ hg]
    | none =>
      cases hmm : r.Spec.MultiModelsClaim with
      | none =>
        simp only [hmc, hmm] at hname ⊢
        cases hname
        simp
      | some mm =>
        simp only [hmc, hmm] at hname hlookup ⊢
        simp only [hname, orPanic] at hlookup ⊢
        cases hg : k8sClient.GetModel modelName r.Namespace with
        | none => simp [hg] at hlookup
        | some model => simp [hreg _ _ _ hg]
  obtain ⟨r', hd⟩ : ∃ r', Default r = .ok r' := by
    cases hmc : r.Spec.ModelClaim with
    | some mc => exact ⟨_, (Default_ok_iff r _).mpr ⟨mc.ModelName, by simp [hmc], rfl⟩⟩
    | none =>
      rcases hclaim with h | ⟨mm, hmm, hlen⟩
      · exact absurd hmc h
      · cases hn : mm.ModelNames with
        | none => simp [hn, Slice.len] at hlen
        | some names =>
          cases names with
          | nil => simp [hn, Slice.len] at hlen
          | cons name rest =>
            exact ⟨_, (Default_ok_iff r _).mpr
              ⟨name, by simp [hmc, hmm, hn, Slice.first], rfl⟩⟩
  refine ⟨r', hd, hlabel r' hd, fun service want got hv => ?_⟩
  rw [validateModelClaim_eq] at hv
  obtain ⟨i, hi, hbefore⟩ := index_of_firstFailure _ _ hv
  have hi4 : i < 4 := by
    by_contra hge
    have : [lookupStep k8sClient r', namesStep r' service, flavorsStep r' service,
        labelStep k8sClient r'][i]? = none := by
      apply List.getElem?_eq_none
      simpa using not_lt.mp hge
    rw [this] at hi; cases hi
  have h3 : i = 3 := by
    by_contra hne
    have hlt : i < 3 := by omega
    interval_cases i
    · simp only [List.getElem?_cons_zero, Option.some.injEq] at hi
      exact lookupStep_ne_label _ _ _ _ hi
    · simp only [List.getElem?_cons_succ, List.getElem?_cons_zero, Option.some.injEq] at hi
      exact namesStep_ne_label _ _ _ _ hi
    · simp only [List.getElem?_cons_succ, List.getElem?_cons_zero, Option.some.injEq] at hi
      exact flavorsStep_ne_label _ _ _ _ hi
  subst h3
  have h0 := hbefore 0 (by decide)
  simp only [List.getElem?_cons_succ, List.getElem?_cons_zero, Option.some.injEq] at hi h0
  rw [hlabel r' hd h0] at hi
  cases hi

/-- C19, at the sample playground, whose label map is nil before `Default`, on
the cluster that holds a record under every model name. -/
theorem Default_establishes_label_step_witness :
    ∃ r', Default samplePlayground = .ok r' ∧
      (lookupStep (clusterWith (serviceWith sampleContainer 1)) r' = .ok () →
        labelStep (clusterWith (serviceWith sampleContainer 1)) r' = .ok ()) ∧
      ∀ service want got,
        validateModelClaim (clusterWith (serviceWith sampleContainer 1)) r' service
          ≠ .error (Failure.returned (CheckError.unexpectedLabelValue want got)) :=
  Default_establishes_label_step (clusterWith (serviceWith sampleContainer 1)) samplePlayground
    (Or.inl (by decide)) (fun _ _ _ h => by cases h; rfl)

/-! ## Claims on the fixture builder -/

theorem appendAll_eq (names : List String) : appendAll names = names := by
  unfold appendAll
  rw [foldl_append_singleton (fun name => name) names []]
  simp

theorem MultiModelsClaim_of_nil_modelClaim (w : PlaygroundWrapper) (modelNames : List String)
    (mode : InferenceMode) (flavorNames : List String) (hw : w.Spec.ModelClaim = none)
    (hf : flavorNames ≠ []) :
    w.MultiModelsClaim modelNames mode flavorNames = .error Panic.nilDereference := by
  have hlen : 0 < flavorNames.length := List.length_pos.mpr hf
  simp [PlaygroundWrapper.MultiModelsClaim, appendAll_eq, hlen, hw]

theorem MultiModelsClaim_of_some_modelClaim (w : PlaygroundWrapper) (modelNames : List String)
    (mode : InferenceMode) (flavorNames : List String) (modelClaim : ModelClaim)
    (hw : w.Spec.ModelClaim = some modelClaim) (hf : flavorNames ≠ []) :
    ∃ w', w.MultiModelsClaim modelNames mode flavorNames = .ok w' ∧
      w'.Spec.MultiModelsClaim = some
        { ModelNames := some modelNames, InferenceMode := mode, InferenceFlavors := none } ∧
      w'.Spec.ModelClaim = some { modelClaim with InferenceFlavors := some flavorNames } := by
  have hlen : 0 < flavorNames.length := List.length_pos.mpr hf
  simp [PlaygroundWrapper.MultiModelsClaim, appendAll_eq, hlen, hw]

/-- C21, the code at the failing input: on the wrapper of `MakePlayground`,
which has no `modelClaim`, `MultiModelsClaim(["a", "b"], Standard, "f1")`
fails on a nil dereference; on a wrapper with `modelClaim` set it completes,
leaves `inferenceFlavors` of the multi-model claim nil and overwrites the
flavors of `modelClaim`; the sibling `ModelClaim` records the flavors on the
claim it sets. -/
theorem MultiModelsClaim_flavors_misplaced :
    (MakePlayground "playground" "default").Spec.ModelClaim = none ∧
    (MakePlayground "playground" "default").MultiModelsClaim ["a", "b"]
      InferenceMode.Standard ["f1"] = .error Panic.nilDereference ∧
    (((MakePlayground "playground" "default").ModelClaim "m" []).MultiModelsClaim ["a", "b"]
        InferenceMode.Standard ["f1"]).map (fun w => w.Spec) = .ok
      { ModelClaim := some { ModelName := "m", InferenceFlavors := some ["f1"] },
        MultiModelsClaim := some
          { ModelNames := some ["a", "b"], InferenceMode := InferenceMode.Standard,
            InferenceFlavors := none },
        BackendConfig := none, Replicas := none } ∧
    ((MakePlayground "playground" "default").ModelClaim "m" ["f1"]).Spec.ModelClaim
      = some { ModelName := "m", InferenceFlavors := some ["f1"] } := by
  refine ⟨rfl, rfl, ?_, ?_⟩ <;> decide

end Llmaz
